import Mathlib

/-!
Shallow embedding of the game-state core of the repository (src/game_state.py,
plus the effect read-and-clear of src/backend/main.py), together with proofs
about the frozen claims.

Modelling conventions:
* Python dicts for entities become structures; the JSON-ish string statuses
  ("active" / "neutralized") stay strings, as in the source.
* The location registry (a Python insertion-ordered dict) becomes an
  association list; insertion appends at the end, lookup returns the first
  match, exactly as iteration order does in the source.
* `uuid.uuid4().hex[:8]` id generation is modelled by a fresh-name counter
  `next_id` on the state: each created entity consumes the counter.  The
  rendered id strings are `"dragon-" ++ tag n` etc., where `tag n` is an
  injective rendering of the counter; only freshness and uniqueness of the
  generated ids matter, matching the role the random hex plays in the source.
* `random.random()` / `random.choice` draws in `process_enemy_turn` are
  supplied by an explicit oracle (`TurnRandom`), quantified over in theorems.
* In-place mutation of a dict found in a list (always found by a unique id)
  is modelled by `updateFirst`, which rewrites the first matching element.
-/

namespace GameState

/-- Rewrite the first element of the list satisfying `p` using `f`;
models in-place mutation of the first matching dict in a Python list. -/
def updateFirst (p : α → Bool) (f : α → α) : List α → List α
  | [] => []
  | x :: xs => if p x then f x :: xs else x :: updateFirst p f xs

/-- Injective rendering of the fresh-name counter used in generated ids. -/
def tag (n : Nat) : String := String.mk (List.replicate n 'x')

/-- Python truthiness of an `str | None` value: `None` and `""` are falsy. -/
def optTruthy : Option String → Bool
  | none => false
  | some s => !s.isEmpty

/-- ASCII model of Python `str.lower()`, written on the character list so the
kernel can evaluate it. -/
def strLower (s : String) : String := String.mk (s.data.map Char.toLower)

/-- Model of Python `str.strip()`: drop leading and trailing whitespace,
written on the character list so the kernel can evaluate it. -/
def strTrim (s : String) : String :=
  String.mk (((s.data.dropWhile Char.isWhitespace).reverse.dropWhile
    Char.isWhitespace).reverse)

/-- The fixed initial location table `LOCATIONS` of game_state.py. -/
def LOCATIONS : List (String × Int × Int) :=
  [("North Ridge", (30, 8)), ("Castle", (28, 16)), ("River Crossing", (37, 23)),
   ("Forest Edge", (8, 14)), ("Mountain Pass", (52, 8)), ("Village", (44, 24)),
   ("Tower", (14, 26)), ("Bridge", (38, 14))]

/-- Knight record (`_make_knight`). -/
structure Knight where
  id : String
  name : String
  location : String
  coordinates : Int × Int
  grace_turn : Bool
deriving DecidableEq

/-- Dragon-spot record (`_make_dragon_spot`); the source key "type" is the
field `dragon_type` here. -/
structure DragonSpot where
  id : String
  location : String
  coordinates : Int × Int
  dragon_type : String
  status : String
deriving DecidableEq

/-- Target record (`_make_target`); the source dict has no "coordinates" key
until one of the `create_target` branches adds it, hence the `Option`. -/
structure Target where
  id : String
  location : String
  linked_dragon_spot_id : Option String
  status : String
  coordinates : Option (Int × Int)
deriving DecidableEq

/-- Trebuchet record (`_make_trebuchet`). -/
structure Trebuchet where
  id : String
  location : String
  coordinates : Int × Int
deriving DecidableEq

/-- Generated id of a dragon spot created when the counter is `n`. -/
def mkDragonId (n : Nat) : String := "dragon-" ++ tag n

/-- Generated id of a knight created when the counter is `n`. -/
def mkKnightId (n : Nat) : String := "knight-" ++ tag n

/-- Generated id of a target created when the counter is `n`. -/
def mkTargetId (n : Nat) : String := "target-" ++ tag n

/-- Generated id of a trebuchet created when the counter is `n`. -/
def mkTrebuchetId (n : Nat) : String := "trebuchet-" ++ tag n

/-- The whole mutable world of `GameMap.__init__`: the location registry, the
four entity collections, the simulation fields, the bounded log, the three
one-shot effect fields, and the fresh-name counter behind id generation. -/
structure GameMap where
  locations : List (String × Int × Int)
  knights : List Knight
  dragon_spots : List DragonSpot
  targets : List Target
  trebuchets : List Trebuchet
  game_active : Bool
  turn_count : Nat
  trebuchet_cooldown : Nat
  turn_logs : List String
  effect_knight_killed_at : Option String
  effect_dragon_killed_by_knight_at : Option String
  effect_dragon_killed_by_artillery_at : Option String
  next_id : Nat
deriving DecidableEq

/-- The freshly constructed `GameMap()`. -/
def GameMap.init : GameMap :=
  { locations := LOCATIONS, knights := [], dragon_spots := [], targets := [],
    trebuchets := [], game_active := false, turn_count := 0, trebuchet_cooldown := 0,
    turn_logs := [], effect_knight_killed_at := none,
    effect_dragon_killed_by_knight_at := none,
    effect_dragon_killed_by_artillery_at := none, next_id := 0 }

/-- `GameMap.resolve_location`: case-insensitive lookup of the trimmed name;
on a miss the trimmed name is registered with coordinates (0, 0). -/
def GameMap.resolve_location (st : GameMap) (location_name : String) :
    (Int × Int) × GameMap :=
  match st.locations.find? (fun kv => strLower kv.1 == strLower (strTrim location_name)) with
  | some kv => (kv.2, st)
  | none => ((0, 0), { st with locations := st.locations ++ [(strTrim location_name, (0, 0))] })

/-- `GameMap.canonical_location_name`: the stored key matching
case-insensitively, or the trimmed input unchanged (no insertion). -/
def GameMap.canonical_location_name (st : GameMap) (location_name : String) : String :=
  match st.locations.find? (fun kv => strLower kv.1 == strLower (strTrim location_name)) with
  | some kv => kv.1
  | none => strTrim location_name

/-- `GameMap.log`: append to `turn_logs`, keeping the last 100 entries. -/
def logAppend (logs : List String) (message : String) : List String :=
  let l := logs ++ [message]
  if l.length > 100 then l.drop (l.length - 100) else l

/-- State-level wrapper of `log`. -/
def GameMap.log (st : GameMap) (message : String) : GameMap :=
  { st with turn_logs := logAppend st.turn_logs message }

/-- `GameMap.log_player_action`. -/
def GameMap.log_player_action (st : GameMap) (message : String) : GameMap :=
  st.log message

/-- `GameMap.set_game_active`: toggle simulation mode and log the change. -/
def GameMap.set_game_active (st : GameMap) (active : Bool) : GameMap :=
  let st1 := { st with game_active := active }
  if active then st1.log "Game started (simulation mode)."
  else st1.log "Game paused (sandbox mode)."

/-- `GameMap.move_knight`: move the named knight (case-insensitive name
match) or the first knight; sets `grace_turn`.  The location is resolved
(possibly auto-registered) before the name is looked up, as in the source. -/
def GameMap.move_knight (st : GameMap) (to_location_name : String)
    (knight_name : Option String) : String × GameMap :=
  if st.knights.isEmpty then ("No knights on the map. Create a knight first.", st)
  else
    let canonical := st.canonical_location_name to_location_name
    let rc := st.resolve_location to_location_name
    let coords := rc.1
    let st1 := rc.2
    match knight_name with
    | some kn =>
      match st1.knights.find? (fun k => strLower k.name == strLower kn) with
      | some k =>
        let mover : Knight → Knight := fun k2 =>
          { k2 with
            location := canonical, coordinates := coords, grace_turn := true }
        ("Moved knight \x27" ++ k.name ++ "\x27 to " ++ canonical ++ ".",
         { st1 with
           knights := updateFirst (fun k2 => strLower k2.name == strLower kn) mover st1.knights })
      | none => ("No knight named \x27" ++ kn ++ "\x27 found.", st1)
    | none =>
      let firstName := ((st1.knights.head?).map (fun k => k.name)).getD ""
      let mover : Knight → Knight := fun k2 =>
        { k2 with
          location := canonical, coordinates := coords, grace_turn := true }
      ("Moved knight \x27" ++ firstName ++ "\x27 to " ++ canonical ++ ".",
       { st1 with knights := updateFirst (fun _ => true) mover st1.knights })

/-- `GameMap.add_knight`: create a knight at the canonicalized location. -/
def GameMap.add_knight (st : GameMap) (name : String)
    (location_name : String := "Castle") : String × GameMap :=
  let canonical := st.canonical_location_name location_name
  let rc := st.resolve_location location_name
  let knight : Knight :=
    { id := mkKnightId st.next_id, name := name, location := canonical,
      coordinates := rc.1, grace_turn := false }
  ("Added knight \x27" ++ name ++ "\x27 at " ++ canonical ++ ".",
   { rc.2 with knights := rc.2.knights ++ [knight], next_id := rc.2.next_id + 1 })

/-- `GameMap.delete_knight`: remove the first knight with the given id. -/
def GameMap.delete_knight (st : GameMap) (knight_id : String) : String × GameMap :=
  if st.knights.any (fun k => k.id == knight_id) then
    ("Removed knight " ++ knight_id ++ ".",
     { st with knights := st.knights.eraseP (fun k => k.id == knight_id) })
  else ("Knight " ++ knight_id ++ " not found.", st)

/-- `GameMap.create_dragon_spot`: add an active spot at the canonical name. -/
def GameMap.create_dragon_spot (st : GameMap) (location_name : String)
    (dragon_type : String) : String × GameMap :=
  let canonical := st.canonical_location_name location_name
  let rc := st.resolve_location location_name
  let spot : DragonSpot :=
    { id := mkDragonId st.next_id, location := canonical, coordinates := rc.1,
      dragon_type := dragon_type, status := "active" }
  ("Created dragon spot (" ++ dragon_type ++ ") at " ++ location_name ++ ".",
   { rc.2 with
     dragon_spots := rc.2.dragon_spots ++ [spot], next_id := rc.2.next_id + 1 })

/-- `GameMap.delete_dragon_spot`: remove the first spot with the given id. -/
def GameMap.delete_dragon_spot (st : GameMap) (dragon_spot_id : String) :
    String × GameMap :=
  if st.dragon_spots.any (fun d => d.id == dragon_spot_id) then
    ("Removed dragon spot " ++ dragon_spot_id ++ ".",
     { st with dragon_spots := st.dragon_spots.eraseP (fun d => d.id == dragon_spot_id) })
  else ("Dragon spot " ++ dragon_spot_id ++ " not found.", st)

/-- `GameMap.trebuchet_available`: cooldown exhausted and no trebuchet built. -/
def GameMap.trebuchet_available (st : GameMap) : Bool :=
  st.trebuchet_cooldown == 0 && st.trebuchets.isEmpty

/-- `GameMap.create_trebuchet`: fails on an active cooldown or an existing
trebuchet (both checks run before any location handling). -/
def GameMap.create_trebuchet (st : GameMap) (location_name : String) :
    String × GameMap :=
  if st.trebuchet_cooldown > 0 then
    ("Cannot build trebuchet: cooldown active (" ++ toString st.trebuchet_cooldown ++
       " turns remaining).", st)
  else if !st.trebuchets.isEmpty then
    ("Cannot build trebuchet: one already exists. Use artillery to fire it, then wait for cooldown.",
     st)
  else
    let canonical := st.canonical_location_name location_name
    let rc := st.resolve_location location_name
    let treb : Trebuchet :=
      { id := mkTrebuchetId st.next_id, location := canonical, coordinates := rc.1 }
    ("Built trebuchet at " ++ canonical ++ ".",
     { rc.2 with trebuchets := rc.2.trebuchets ++ [treb], next_id := rc.2.next_id + 1 })

/-- `GameMap.create_target`: linked targets inherit the linked spot's current
location (when the spot is found and its location is truthy); unlinked targets
canonicalize and resolve their own location when the argument is truthy. -/
def GameMap.create_target (st : GameMap) (location_name : Option String)
    (linked_dragon_spot_id : Option String) : String × GameMap :=
  if optTruthy linked_dragon_spot_id then
    let lid := linked_dragon_spot_id.getD ""
    let found := st.dragon_spots.find? (fun d => d.id == lid)
    let loc : Option String := found.map (fun d => d.location)
    let coords : Int × Int := (found.map (fun d => d.coordinates)).getD (0, 0)
    let target0 : Target :=
      { id := mkTargetId st.next_id, location := (loc.getD ""),
        linked_dragon_spot_id := linked_dragon_spot_id, status := "active",
        coordinates := none }
    let target :=
      if optTruthy loc then { target0 with coordinates := some coords } else target0
    ("Created target at " ++
       (if target.location.isEmpty then "linked location" else target.location) ++ ".",
     { st with targets := st.targets ++ [target], next_id := st.next_id + 1 })
  else
    let canonical := st.canonical_location_name ((location_name).getD "")
    let target0 : Target :=
      { id := mkTargetId st.next_id, location := canonical,
        linked_dragon_spot_id := none, status := "active", coordinates := none }
    if optTruthy location_name then
      let rc := st.resolve_location ((location_name).getD "")
      let target := { target0 with coordinates := some rc.1 }
      ("Created target at " ++
         (if target.location.isEmpty then "linked location" else target.location) ++ ".",
       { rc.2 with targets := rc.2.targets ++ [target], next_id := rc.2.next_id + 1 })
    else
      ("Created target at " ++
         (if target0.location.isEmpty then "linked location" else target0.location) ++ ".",
       { st with targets := st.targets ++ [target0], next_id := st.next_id + 1 })

/-- `GameMap.delete_target`: remove the first target with the given id. -/
def GameMap.delete_target (st : GameMap) (target_id : String) : String × GameMap :=
  if st.targets.any (fun t => t.id == target_id) then
    ("Removed target " ++ target_id ++ ".",
     { st with targets := st.targets.eraseP (fun t => t.id == target_id) })
  else ("Target " ++ target_id ++ " not found.", st)

/-- `GameMap.neutralize_target`: set the target (found in the list by its
unique id) to neutralized and, when its link is truthy, the first dragon spot
carrying the linked id as well. -/
def GameMap.neutralize_target (st : GameMap) (t : Target) : GameMap :=
  let targets := updateFirst (fun x => x.id == t.id)
    (fun x => { x with status := "neutralized" }) st.targets
  let spots :=
    match t.linked_dragon_spot_id with
    | some l =>
      if l.isEmpty then st.dragon_spots
      else updateFirst (fun d => d.id == l)
        (fun d => { d with status := "neutralized" }) st.dragon_spots
    | none => st.dragon_spots
  { st with targets := targets, dragon_spots := spots }

/-- `GameMap.knight_at_location`. -/
def GameMap.knight_at_location (st : GameMap) (location : String) : Bool :=
  st.knights.any (fun k => k.location == location)

/-- The `AttackMethod` enum of game_state.py. -/
inductive AttackMethod
  | knight
  | artillery
deriving DecidableEq

/-- The string value carried by each `AttackMethod` member. -/
def AttackMethod.value : AttackMethod → String
  | .knight => "knight"
  | .artillery => "artillery"

/-- `AttackMethod(s)` construction by value; `none` models the ValueError. -/
def AttackMethod.ofValue (s : String) : Option AttackMethod :=
  if s == "knight" then some .knight
  else if s == "artillery" then some .artillery
  else none

/-- The sequential per-target loop of `GameMap.attack_target`: each resolved
target is checked (knight present / trebuchet present) and neutralized in
order; a failing check aborts with earlier neutralizations kept. -/
def attackLoop (method : AttackMethod) : List Target → GameMap → String × GameMap
  | [], st => ("Target(s) neutralized (" ++ method.value ++ ").", st)
  | t :: rest, st =>
    if method == .knight && !(st.knight_at_location t.location) then
      ("Cannot attack with knight: no knight at " ++ t.location ++
         ". Move a knight there first or use artillery.", st)
    else if method == .artillery && st.trebuchets.isEmpty then
      ("Cannot attack with artillery: no trebuchet on the map. Build one first (when cooldown allows).",
       st)
    else
      let st1 :=
        if method == .artillery then
          { st with
            trebuchets := [], trebuchet_cooldown := 3,
            effect_dragon_killed_by_artillery_at := some t.location }
        else { st with effect_dragon_killed_by_knight_at := some t.location }
      attackLoop method rest (st1.neutralize_target t)

/-- `GameMap.attack_target`: resolve the id to a target, or to the targets
linked to a dragon spot (neutralizing an unlinked spot directly), then run
the sequential attack loop. -/
def GameMap.attack_target (st : GameMap) (target_id : String)
    (attack_method : String) : String × GameMap :=
  match AttackMethod.ofValue (strLower attack_method) with
  | none =>
    ("Invalid attack_method: " ++ attack_method ++
       ". Use \x27knight\x27 or \x27artillery\x27.", st)
  | some method =>
    match st.targets.find? (fun t => t.id == target_id) with
    | some t => attackLoop method [t] st
    | none =>
      match st.dragon_spots.find? (fun d => d.id == target_id) with
      | some _ =>
        let resolved := st.targets.filter
          (fun t => t.linked_dragon_spot_id == some target_id)
        if resolved.isEmpty then
          let neut : DragonSpot → DragonSpot := fun d => { d with status := "neutralized" }
          ("Dragon spot " ++ target_id ++ " neutralized (" ++ method.value ++ ").",
           { st with
             dragon_spots := updateFirst (fun d => d.id == target_id) neut st.dragon_spots })
        else attackLoop method resolved st
      | none => ("Target or dragon spot " ++ target_id ++ " not found.", st)

/-- `GameMap.other_locations`: every other known location name, in registry
order. -/
def GameMap.other_locations (st : GameMap) (location_name : String) : List String :=
  (st.locations.map (fun kv => kv.1)).filter (fun n => n != location_name)

/-- Oracle for the random draws of one `process_enemy_turn` call: per-dragon
movement roll (`true` models `random.random() < 0.5`) and choice index, plus
the spawn roll (`random.random() < 0.30`) and spawn choice index. -/
structure TurnRandom where
  move_roll : Nat → Bool
  move_choice : Nat → Nat
  spawn_roll : Bool
  spawn_choice : Nat

/-- Movement pass of `process_enemy_turn`: each active unlocked dragon spot
whose roll fires relocates to a chosen other location (threading the registry
and the log through the state). -/
def dragonMovePass (locked : List String) (r : TurnRandom) :
    List DragonSpot → Nat → GameMap → List DragonSpot × GameMap
  | [], _, st => ([], st)
  | d :: ds, i, st =>
    if d.status == "active" && !(locked.contains d.id) && r.move_roll i then
      let others := st.other_locations d.location
      if others.isEmpty then
        let rec1 := dragonMovePass locked r ds (i + 1) st
        (d :: rec1.1, rec1.2)
      else
        let new_loc := others.getD (r.move_choice i % others.length) ""
        let rc := st.resolve_location new_loc
        let st2 := rc.2.log ("Dragon moved to " ++ new_loc ++ ".")
        let rec1 := dragonMovePass locked r ds (i + 1) st2
        ({ d with location := new_loc, coordinates := rc.1 } :: rec1.1, rec1.2)
    else
      let rec1 := dragonMovePass locked r ds (i + 1) st
      (d :: rec1.1, rec1.2)

/-- Combat pass of `process_enemy_turn`: for each active dragon spot, every
co-located knight without grace is removed, the knight-killed effect is
stamped with the spot's location, and one log line per kill is appended. -/
def combatPass : List DragonSpot → GameMap → GameMap
  | [], st => st
  | d :: ds, st =>
    if d.status == "active" then
      let killed := st.knights.filter (fun k => k.location == d.location && !k.grace_turn)
      let kept := st.knights.filter (fun k => !(k.location == d.location && !k.grace_turn))
      let st1 :=
        { st with
          knights := kept,
          effect_knight_killed_at :=
            if killed.isEmpty then st.effect_knight_killed_at else some d.location,
          turn_logs := killed.foldl
            (fun ls _ => logAppend ls ("Knight killed at " ++ d.location ++ "!"))
            st.turn_logs }
      combatPass ds st1
    else combatPass ds st

/-- `GameMap.process_enemy_turn`: early return when the game is inactive;
otherwise turn header, locked-spot computation, movement pass, combat pass,
grace clearing, spawning, and the cooldown decrement, in source order. -/
def enemyPrelude (st : GameMap) : GameMap :=
  ({ st with turn_count := st.turn_count + 1 }).log
    ("--- Turn " ++ toString (st.turn_count + 1) ++ " ---")

/-- The set of "locked" dragon-spot ids: those referenced by a still-active
linked target (Python builds it as a set comprehension over `self._targets`). -/
def lockedIds (st : GameMap) : List String :=
  (st.targets.filter
    (fun t => optTruthy t.linked_dragon_spot_id && t.status == "active")).filterMap
    (fun t => t.linked_dragon_spot_id)

/-- Movement stage: run the per-dragon movement pass and store the updated
spot list. -/
def enemyMove (st : GameMap) (r : TurnRandom) : GameMap :=
  let mp := dragonMovePass (lockedIds st) r st.dragon_spots 0 st
  { mp.2 with dragon_spots := mp.1 }

/-- Combat stage over the (post-movement) spot list. -/
def enemyCombat (st : GameMap) : GameMap :=
  combatPass st.dragon_spots st

/-- Grace-clearing stage: every surviving knight loses `grace_turn`. -/
def enemyGraceClear (st : GameMap) : GameMap :=
  { st with knights := st.knights.map (fun k => { k with grace_turn := false }) }

/-- Candidate spawn locations: every known location name except "Castle". -/
def spawnLocs (st : GameMap) : List String :=
  (st.locations.map (fun kv => kv.1)).filter (fun n => n != "Castle")

/-- Spawn stage: with the spawn roll, add a fresh active "fire" spot at a
chosen non-Castle location. -/
def enemySpawn (st : GameMap) (r : TurnRandom) : GameMap :=
  if !(spawnLocs st).isEmpty && r.spawn_roll then
    let loc := (spawnLocs st).getD (r.spawn_choice % (spawnLocs st).length) ""
    let rc := st.resolve_location loc
    let spot : DragonSpot :=
      { id := mkDragonId st.next_id, location := loc, coordinates := rc.1,
        dragon_type := "fire", status := "active" }
    ({ rc.2 with
       dragon_spots := rc.2.dragon_spots ++ [spot],
       next_id := rc.2.next_id + 1 }).log ("Dragon spawned at " ++ loc ++ ".")
  else st

/-- Cooldown stage: decrement `trebuchet_cooldown`, floored at 0. -/
def enemyCooldown (st : GameMap) : GameMap :=
  if st.trebuchet_cooldown > 0 then
    { st with trebuchet_cooldown := st.trebuchet_cooldown - 1 }
  else st

def GameMap.process_enemy_turn (st : GameMap) (r : TurnRandom) : GameMap :=
  if !st.game_active then st
  else
    enemyCooldown (enemySpawn (enemyGraceClear (enemyCombat (enemyMove (enemyPrelude st) r))) r)

/-- The read-only dict returned by `GameMap.snapshot`, field for field.  Note
that the source snapshot carries no effect fields. -/
structure Snapshot where
  locations : List String
  knights : List Knight
  dragon_spots : List DragonSpot
  targets : List Target
  trebuchets : List Trebuchet
  game_active : Bool
  turn_count : Nat
  trebuchet_cooldown : Nat
  trebuchet_available : Bool
  turn_logs : List String
deriving DecidableEq

/-- `GameMap.snapshot`: a pure read of the state. -/
def GameMap.snapshot (st : GameMap) : Snapshot :=
  { locations := st.locations.map (fun kv => kv.1),
    knights := st.knights,
    dragon_spots := st.dragon_spots,
    targets := st.targets,
    trebuchets := st.trebuchets,
    game_active := st.game_active,
    turn_count := st.turn_count,
    trebuchet_cooldown := st.trebuchet_cooldown,
    trebuchet_available := st.trebuchet_available,
    turn_logs := st.turn_logs }

/-- The one-shot effect read-and-clear performed by `_state_for_api` in
src/backend/main.py (lines 117-123): the three effect fields are read into
the response and then set to `None`; the geometric rendering around it is a
pure read and is not modelled. -/
def takeEffects (st : GameMap) :
    (Option String × Option String × Option String) × GameMap :=
  ((st.effect_knight_killed_at, st.effect_dragon_killed_by_knight_at,
    st.effect_dragon_killed_by_artillery_at),
   { st with
     effect_knight_killed_at := none,
     effect_dragon_killed_by_knight_at := none,
     effect_dragon_killed_by_artillery_at := none })

/-- Reachability: every state obtainable from `GameMap()` by the public
action surface (any arguments) and adversary turns (any random outcome).
The side condition on `create_target` reflects the stated id discipline of
the interface ("collaborators must not construct or guess ids"): a linked id
passed by a caller is never an id the generator has not produced yet. -/
inductive Reachable : GameMap → Prop
  | init : Reachable GameMap.init
  | move_knight (st : GameMap) (loc : String) (kn : Option String) :
      Reachable st → Reachable (st.move_knight loc kn).2
  | add_knight (st : GameMap) (name loc : String) :
      Reachable st → Reachable (st.add_knight name loc).2
  | delete_knight (st : GameMap) (kid : String) :
      Reachable st → Reachable (st.delete_knight kid).2
  | create_dragon_spot (st : GameMap) (loc dtype : String) :
      Reachable st → Reachable (st.create_dragon_spot loc dtype).2
  | delete_dragon_spot (st : GameMap) (did : String) :
      Reachable st → Reachable (st.delete_dragon_spot did).2
  | create_trebuchet (st : GameMap) (loc : String) :
      Reachable st → Reachable (st.create_trebuchet loc).2
  | create_target (st : GameMap) (loc lid : Option String)
      (hfresh : ∀ l, lid = some l → ∀ m, l = mkDragonId m → m < st.next_id) :
      Reachable st → Reachable (st.create_target loc lid).2
  | delete_target (st : GameMap) (tid : String) :
      Reachable st → Reachable (st.delete_target tid).2
  | attack_target (st : GameMap) (tid method : String) :
      Reachable st → Reachable (st.attack_target tid method).2
  | process_enemy_turn (st : GameMap) (r : TurnRandom) :
      Reachable st → Reachable (st.process_enemy_turn r)
  | set_game_active (st : GameMap) (b : Bool) :
      Reachable st → Reachable (st.set_game_active b)
  | log_player_action (st : GameMap) (m : String) :
      Reachable st → Reachable (st.log_player_action m)
  | take_effects (st : GameMap) :
      Reachable st → Reachable (takeEffects st).2

/-- Invariant carried by every reachable state; the first two fields are the
claimed target/spot relationships, the rest is the id-freshness and
status-wellformedness bookkeeping needed to push them through each action. -/
structure Inv (st : GameMap) : Prop where
  link_loc : ∀ t ∈ st.targets, ∀ d ∈ st.dragon_spots,
    t.linked_dragon_spot_id = some d.id → t.location = d.location
  link_status : ∀ t ∈ st.targets, ∀ d ∈ st.dragon_spots,
    t.linked_dragon_spot_id = some d.id → t.status ≠ "active" → d.status ≠ "active"
  spot_nodup : (st.dragon_spots.map DragonSpot.id).Nodup
  spot_fresh : ∀ d ∈ st.dragon_spots, ∃ m, m < st.next_id ∧ d.id = mkDragonId m
  link_fresh : ∀ t ∈ st.targets, ∀ l, t.linked_dragon_spot_id = some l →
    ∀ m, l = mkDragonId m → m < st.next_id
  target_nodup : (st.targets.map Target.id).Nodup
  target_fresh : ∀ t ∈ st.targets, ∃ m, m < st.next_id ∧ t.id = mkTargetId m
  spot_status : ∀ d ∈ st.dragon_spots, d.status = "active" ∨ d.status = "neutralized"
  target_status : ∀ t ∈ st.targets, t.status = "active" ∨ t.status = "neutralized"

/-- Turn oracle under which no movement roll fires and no spawn occurs. -/
def rNone : TurnRandom :=
  { move_roll := fun _ => false, move_choice := fun _ => 0,
    spawn_roll := false, spawn_choice := 0 }

/-- Demo state: one fire dragon spot at "Village" (id `mkDragonId 0`). -/
def demoSpotState : GameMap := (GameMap.init.create_dragon_spot "Village" "fire").2

/-- Demo state: the Village spot plus a target linked to it (id `mkTargetId 1`). -/
def demoLinkedState : GameMap :=
  (demoSpotState.create_target none (some (mkDragonId 0))).2

/-- Demo state: the linked pair plus a trebuchet at "Castle". -/
def demoTrebState : GameMap := (demoLinkedState.create_trebuchet "Castle").2

/-- Trace state: the Village spot plus a knight "K" at Village. -/
def c4State2 : GameMap := (demoSpotState.add_knight "K" "Village").2

/-- Trace state: spot, knight, and a target linked to the spot. -/
def c4State3 : GameMap := (c4State2.create_target none (some (mkDragonId 0))).2

/-- Trace state: after a knight attack on the linked target (target and spot
both become neutralized). -/
def c4State4 : GameMap := (c4State3.attack_target (mkTargetId 2) "knight").2

/-- Trace state: a second target linked to the now-neutralized spot. -/
def c4State5 : GameMap := (c4State4.create_target none (some (mkDragonId 0))).2

/-- Demo state: inactive game, a knight freshly moved to Village (grace on). -/
def graceMoveState : GameMap :=
  ((demoSpotState.add_knight "K" "Castle").2.move_knight "Village" none).2

/-- Demo state: active game, a knight without grace sharing Village with the
active spot. -/
def activeComboState : GameMap := c4State2.set_game_active true

/-- Demo state: active game, a freshly moved (grace on) knight sharing Village
with the active spot. -/
def activeGraceState : GameMap := graceMoveState.set_game_active true

/-- Demo state: right after a successful artillery strike — no trebuchet on
the map and the cooldown at 3. -/
def artilleryDoneState : GameMap :=
  (demoTrebState.attack_target (mkTargetId 1) "artillery").2

/-! Helper lemmas about `updateFirst`, the id renderings, and the state
projections of the auxiliary operations. -/

theorem mem_updateFirst {p : α → Bool} {f : α → α} {l : List α} {x : α}
    (hx : x ∈ updateFirst p f l) : ∃ a, a ∈ l ∧ (x = a ∨ x = f a) := by
  induction l with
  | nil => simp [updateFirst] at hx
  | cons b bs ih =>
    by_cases hb : p b = true
    · rw [updateFirst, if_pos hb] at hx
      rcases List.mem_cons.mp hx with h | h
      · exact ⟨b, List.mem_cons_self b bs, Or.inr h⟩
      · exact ⟨x, List.mem_cons_of_mem b h, Or.inl rfl⟩
    · rw [updateFirst, if_neg hb] at hx
      rcases List.mem_cons.mp hx with h | h
      · exact ⟨b, List.mem_cons_self b bs, Or.inl h⟩
      · rcases ih h with ⟨a, ha, hxa⟩
        exact ⟨a, List.mem_cons_of_mem b ha, hxa⟩

theorem updateFirst_of_forall_not {p : α → Bool} {f : α → α} {l : List α}
    (h : ∀ a ∈ l, p a = false) : updateFirst p f l = l := by
  induction l with
  | nil => rfl
  | cons b bs ih =>
    rw [updateFirst, if_neg (by simp [h b (List.mem_cons_self b bs)])]
    rw [ih (fun a ha => h a (List.mem_cons_of_mem b ha))]

theorem map_updateFirst {p : α → Bool} {f : α → α} {g : α → β} {l : List α}
    (hg : ∀ a, g (f a) = g a) : (updateFirst p f l).map g = l.map g := by
  induction l with
  | nil => rfl
  | cons b bs ih =>
    by_cases hb : p b = true
    · rw [updateFirst, if_pos hb]
      simp [hg, ih]
    · rw [updateFirst, if_neg hb]
      simp [ih]

theorem mem_updateFirst_key {key : α → String} {c : String} {f : α → α} {l : List α}
    {x : α} (hnd : (l.map key).Nodup) (hx : x ∈ updateFirst (fun a => key a == c) f l)
    (hkey : key x = c) : ∃ a, a ∈ l ∧ key a = c ∧ x = f a := by
  induction l with
  | nil => simp [updateFirst] at hx
  | cons b bs ih =>
    by_cases hb : (key b == c) = true
    · rw [updateFirst, if_pos hb] at hx
      rcases List.mem_cons.mp hx with h | h
      · exact ⟨b, List.mem_cons_self b bs, eq_of_beq hb, h⟩
      · exfalso
        have hbc : key b = c := eq_of_beq hb
        have hxmem : key x ∈ bs.map key := List.mem_map_of_mem key h
        rw [hkey, ← hbc] at hxmem
        exact (List.nodup_cons.mp (by simpa using hnd)).1 hxmem
    · rw [updateFirst, if_neg hb] at hx
      rcases List.mem_cons.mp hx with h | h
      · exfalso
        have : key b = c := by rw [← h, hkey]
        simp [this] at hb
      · rcases ih (List.nodup_cons.mp (by simpa using hnd)).2 h with ⟨a, ha, hac, hxa⟩
        exact ⟨a, List.mem_cons_of_mem b ha, hac, hxa⟩

theorem find?_updateFirst {p : α → Bool} {f : α → α} {l : List α} {a : α}
    (h : l.find? p = some a) (hfa : p (f a) = true) :
    (updateFirst p f l).find? p = some (f a) := by
  induction l with
  | nil => simp at h
  | cons b bs ih =>
    by_cases hb : p b = true
    · rw [List.find?_cons_of_pos _ hb] at h
      have hba : b = a := by injection h
      subst hba
      rw [updateFirst, if_pos hb, List.find?_cons_of_pos _ hfa]
    · rw [List.find?_cons_of_neg _ (by simpa using hb)] at h
      rw [updateFirst, if_neg hb, List.find?_cons_of_neg _ (by simpa using hb)]
      exact ih h

theorem tag_inj {m n : Nat} (h : tag m = tag n) : m = n := by
  have hd : List.replicate m 'x' = List.replicate n 'x' := congrArg String.data h
  have := congrArg List.length hd
  simpa using this

theorem mkDragonId_inj {m n : Nat} (h : mkDragonId m = mkDragonId n) : m = n := by
  have hd := congrArg String.data h
  simp only [mkDragonId, String.data_append] at hd
  exact tag_inj (congrArg String.mk (List.append_cancel_left hd))

theorem mkTargetId_inj {m n : Nat} (h : mkTargetId m = mkTargetId n) : m = n := by
  have hd := congrArg String.data h
  simp only [mkTargetId, String.data_append] at hd
  exact tag_inj (congrArg String.mk (List.append_cancel_left hd))

theorem mkDragonId_ne_empty (m : Nat) : mkDragonId m ≠ "" := by
  intro h
  have hd := congrArg String.data h
  simp only [mkDragonId, String.data_append] at hd
  have := congrArg List.length hd
  simp at this

theorem mkDragonId_isEmpty (m : Nat) : (mkDragonId m).isEmpty = false := by
  cases he : (mkDragonId m).isEmpty
  · rfl
  · exact absurd ((String.isEmpty_iff (mkDragonId m)).mp he) (mkDragonId_ne_empty m)

/-! State projections of the auxiliary operations. -/

@[simp] theorem resolve_location_targets (st : GameMap) (nm : String) :
    (st.resolve_location nm).2.targets = st.targets := by
  unfold GameMap.resolve_location
  cases st.locations.find? (fun kv => strLower kv.1 == strLower (strTrim nm)) <;> rfl

@[simp] theorem resolve_location_spots (st : GameMap) (nm : String) :
    (st.resolve_location nm).2.dragon_spots = st.dragon_spots := by
  unfold GameMap.resolve_location
  cases st.locations.find? (fun kv => strLower kv.1 == strLower (strTrim nm)) <;> rfl

@[simp] theorem resolve_location_knights (st : GameMap) (nm : String) :
    (st.resolve_location nm).2.knights = st.knights := by
  unfold GameMap.resolve_location
  cases st.locations.find? (fun kv => strLower kv.1 == strLower (strTrim nm)) <;> rfl

@[simp] theorem resolve_location_trebuchets (st : GameMap) (nm : String) :
    (st.resolve_location nm).2.trebuchets = st.trebuchets := by
  unfold GameMap.resolve_location
  cases st.locations.find? (fun kv => strLower kv.1 == strLower (strTrim nm)) <;> rfl

@[simp] theorem resolve_location_next_id (st : GameMap) (nm : String) :
    (st.resolve_location nm).2.next_id = st.next_id := by
  unfold GameMap.resolve_location
  cases st.locations.find? (fun kv => strLower kv.1 == strLower (strTrim nm)) <;> rfl

@[simp] theorem resolve_location_game_active (st : GameMap) (nm : String) :
    (st.resolve_location nm).2.game_active = st.game_active := by
  unfold GameMap.resolve_location
  cases st.locations.find? (fun kv => strLower kv.1 == strLower (strTrim nm)) <;> rfl

@[simp] theorem resolve_location_cooldown (st : GameMap) (nm : String) :
    (st.resolve_location nm).2.trebuchet_cooldown = st.trebuchet_cooldown := by
  unfold GameMap.resolve_location
  cases st.locations.find? (fun kv => strLower kv.1 == strLower (strTrim nm)) <;> rfl

@[simp] theorem log_targets (st : GameMap) (m : String) : (st.log m).targets = st.targets := rfl

@[simp] theorem log_spots (st : GameMap) (m : String) :
    (st.log m).dragon_spots = st.dragon_spots := rfl

@[simp] theorem log_knights (st : GameMap) (m : String) : (st.log m).knights = st.knights := rfl

@[simp] theorem log_next_id (st : GameMap) (m : String) : (st.log m).next_id = st.next_id := rfl

/-! Preservation of the reachability invariant by every action. -/

theorem Inv.frame {st st2 : GameMap} (h : Inv st) (ht : st2.targets = st.targets)
    (hd : st2.dragon_spots = st.dragon_spots) (hn : st.next_id ≤ st2.next_id) : Inv st2 := by
  constructor
  · rw [ht, hd]; exact h.link_loc
  · rw [ht, hd]; exact h.link_status
  · rw [hd]; exact h.spot_nodup
  · rw [hd]
    intro d hdm
    rcases h.spot_fresh d hdm with ⟨m, hm, he⟩
    exact ⟨m, lt_of_lt_of_le hm hn, he⟩
  · rw [ht]
    intro t htm l hl m hm
    exact lt_of_lt_of_le (h.link_fresh t htm l hl m hm) hn
  · rw [ht]; exact h.target_nodup
  · rw [ht]
    intro t htm
    rcases h.target_fresh t htm with ⟨m, hm, he⟩
    exact ⟨m, lt_of_lt_of_le hm hn, he⟩
  · rw [hd]; exact h.spot_status
  · rw [ht]; exact h.target_status

theorem Inv.sub {st st2 : GameMap} (h : Inv st)
    (ht : List.Sublist st2.targets st.targets)
    (hd : List.Sublist st2.dragon_spots st.dragon_spots)
    (hn : st.next_id ≤ st2.next_id) : Inv st2 := by
  constructor
  · intro t htm d hdm hl
    exact h.link_loc t (ht.subset htm) d (hd.subset hdm) hl
  · intro t htm d hdm hl hs
    exact h.link_status t (ht.subset htm) d (hd.subset hdm) hl hs
  · exact h.spot_nodup.sublist (hd.map DragonSpot.id)
  · intro d hdm
    rcases h.spot_fresh d (hd.subset hdm) with ⟨m, hm, he⟩
    exact ⟨m, lt_of_lt_of_le hm hn, he⟩
  · intro t htm l hl m hm
    exact lt_of_lt_of_le (h.link_fresh t (ht.subset htm) l hl m hm) hn
  · exact h.target_nodup.sublist (ht.map Target.id)
  · intro t htm
    rcases h.target_fresh t (ht.subset htm) with ⟨m, hm, he⟩
    exact ⟨m, lt_of_lt_of_le hm hn, he⟩
  · intro d hdm
    exact h.spot_status d (hd.subset hdm)
  · intro t htm
    exact h.target_status t (ht.subset htm)

theorem Inv.move_knight {st : GameMap} (h : Inv st) (loc : String) (kn : Option String) :
    Inv (st.move_knight loc kn).2 := by
  unfold GameMap.move_knight
  by_cases hk : st.knights.isEmpty = true
  · simp only [hk, if_true]
    exact h
  · simp only [hk, Bool.false_eq_true, if_false]
    cases kn with
    | none =>
      refine h.frame ?_ ?_ ?_ <;> simp
    | some kn2 =>
      cases hf : ((st.resolve_location loc).2).knights.find?
          (fun k => strLower k.name == strLower kn2) with
      | none =>
        simp only [hf]
        refine h.frame ?_ ?_ ?_ <;> simp
      | some k =>
        simp only [hf]
        refine h.frame ?_ ?_ ?_ <;> simp

theorem Inv.add_knight {st : GameMap} (h : Inv st) (name loc : String) :
    Inv (st.add_knight name loc).2 := by
  unfold GameMap.add_knight
  refine h.frame ?_ ?_ ?_ <;> simp

theorem Inv.delete_knight {st : GameMap} (h : Inv st) (kid : String) :
    Inv (st.delete_knight kid).2 := by
  unfold GameMap.delete_knight
  by_cases hk : st.knights.any (fun k => k.id == kid) = true
  · simp only [hk, if_true]
    exact h.frame rfl rfl le_rfl
  · simp only [hk, Bool.false_eq_true, if_false]
    exact h

theorem Inv.create_trebuchet {st : GameMap} (h : Inv st) (loc : String) :
    Inv (st.create_trebuchet loc).2 := by
  unfold GameMap.create_trebuchet
  by_cases h1 : st.trebuchet_cooldown > 0
  · simp only [h1, if_true]
    exact h
  · rw [if_neg h1]
    by_cases h2 : (!st.trebuchets.isEmpty) = true
    · rw [if_pos h2]
      exact h
    · rw [if_neg h2]
      refine h.frame ?_ ?_ ?_ <;> simp

theorem Inv.set_game_active {st : GameMap} (h : Inv st) (b : Bool) :
    Inv (st.set_game_active b) := by
  unfold GameMap.set_game_active
  cases b <;> exact h.frame rfl rfl le_rfl

theorem Inv.log_player_action {st : GameMap} (h : Inv st) (m : String) :
    Inv (st.log_player_action m) :=
  h.frame rfl rfl le_rfl

theorem Inv.take_effects {st : GameMap} (h : Inv st) : Inv (takeEffects st).2 :=
  h.frame rfl rfl le_rfl

theorem Inv.delete_target {st : GameMap} (h : Inv st) (tid : String) :
    Inv (st.delete_target tid).2 := by
  unfold GameMap.delete_target
  by_cases hk : st.targets.any (fun t => t.id == tid) = true
  · simp only [hk, if_true]
    exact h.sub (List.eraseP_sublist st.targets) (List.Sublist.refl _) le_rfl
  · simp only [hk, Bool.false_eq_true, if_false]
    exact h

theorem Inv.delete_dragon_spot {st : GameMap} (h : Inv st) (did : String) :
    Inv (st.delete_dragon_spot did).2 := by
  unfold GameMap.delete_dragon_spot
  by_cases hk : st.dragon_spots.any (fun d => d.id == did) = true
  · simp only [hk, if_true]
    exact h.sub (List.Sublist.refl _) (List.eraseP_sublist st.dragon_spots) le_rfl
  · simp only [hk, Bool.false_eq_true, if_false]
    exact h

theorem Inv.append_spot {st st2 : GameMap} (h : Inv st) (spot : DragonSpot)
    (hid : spot.id = mkDragonId st.next_id) (hstat : spot.status = "active")
    (ht : st2.targets = st.targets) (hd : st2.dragon_spots = st.dragon_spots ++ [spot])
    (hn : st2.next_id = st.next_id + 1) : Inv st2 := by
  constructor
  · rw [ht, hd]
    intro t htm d hdm hl
    rcases List.mem_append.mp hdm with hdo | hdn
    · exact h.link_loc t htm d hdo hl
    · have hds : d = spot := by simpa using hdn
      exfalso
      have := h.link_fresh t htm d.id hl st.next_id (by rw [hds, hid])
      omega
  · rw [ht, hd]
    intro t htm d hdm hl hs
    rcases List.mem_append.mp hdm with hdo | hdn
    · exact h.link_status t htm d hdo hl hs
    · have hds : d = spot := by simpa using hdn
      exfalso
      have := h.link_fresh t htm d.id hl st.next_id (by rw [hds, hid])
      omega
  · rw [hd, List.map_append]
    refine List.nodup_append.mpr ⟨h.spot_nodup, List.nodup_singleton _, ?_⟩
    intro x hx hx2
    have hxe : x = spot.id := by simpa using hx2
    rcases List.mem_map.mp hx with ⟨d, hdm, hde⟩
    rcases h.spot_fresh d hdm with ⟨m, hm, hdid⟩
    have : mkDragonId m = mkDragonId st.next_id := by rw [← hdid, hde, hxe, hid]
    have := mkDragonId_inj this
    omega
  · rw [hd, hn]
    intro d hdm
    rcases List.mem_append.mp hdm with hdo | hdn
    · rcases h.spot_fresh d hdo with ⟨m, hm, he⟩
      exact ⟨m, by omega, he⟩
    · have hds : d = spot := by simpa using hdn
      exact ⟨st.next_id, by omega, by rw [hds, hid]⟩
  · rw [ht, hn]
    intro t htm l hl m hm
    have := h.link_fresh t htm l hl m hm
    omega
  · rw [ht]
    exact h.target_nodup
  · rw [ht, hn]
    intro t htm
    rcases h.target_fresh t htm with ⟨m, hm, he⟩
    exact ⟨m, by omega, he⟩
  · rw [hd]
    intro d hdm
    rcases List.mem_append.mp hdm with hdo | hdn
    · exact h.spot_status d hdo
    · have hds : d = spot := by simpa using hdn
      exact Or.inl (by rw [hds, hstat])
  · rw [ht]
    exact h.target_status

theorem Inv.append_target {st st2 : GameMap} (h : Inv st) (t0 : Target)
    (hid : t0.id = mkTargetId st.next_id) (hstat : t0.status = "active")
    (hloc : ∀ d ∈ st.dragon_spots, t0.linked_dragon_spot_id = some d.id →
      t0.location = d.location)
    (hfr : ∀ l, t0.linked_dragon_spot_id = some l → ∀ m, l = mkDragonId m → m < st.next_id)
    (ht : st2.targets = st.targets ++ [t0]) (hd : st2.dragon_spots = st.dragon_spots)
    (hn : st2.next_id = st.next_id + 1) : Inv st2 := by
  constructor
  · rw [ht, hd]
    intro t htm d hdm hl
    rcases List.mem_append.mp htm with hto | htn
    · exact h.link_loc t hto d hdm hl
    · have hts : t = t0 := by simpa using htn
      subst hts
      exact hloc d hdm hl
  · rw [ht, hd]
    intro t htm d hdm hl hs
    rcases List.mem_append.mp htm with hto | htn
    · exact h.link_status t hto d hdm hl hs
    · have hts : t = t0 := by simpa using htn
      exact absurd (by rw [hts, hstat]) hs
  · rw [hd]
    exact h.spot_nodup
  · rw [hd, hn]
    intro d hdm
    rcases h.spot_fresh d hdm with ⟨m, hm, he⟩
    exact ⟨m, by omega, he⟩
  · rw [ht, hn]
    intro t htm l hl m hm
    rcases List.mem_append.mp htm with hto | htn
    · have := h.link_fresh t hto l hl m hm
      omega
    · have hts : t = t0 := by simpa using htn
      have := hfr l (by rw [← hts]; exact hl) m hm
      omega
  · rw [ht, List.map_append]
    refine List.nodup_append.mpr ⟨h.target_nodup, List.nodup_singleton _, ?_⟩
    intro x hx hx2
    have hxe : x = t0.id := by simpa using hx2
    rcases List.mem_map.mp hx with ⟨t, htm, hte⟩
    rcases h.target_fresh t htm with ⟨m, hm, htid⟩
    have : mkTargetId m = mkTargetId st.next_id := by rw [← htid, hte, hxe, hid]
    have := mkTargetId_inj this
    omega
  · rw [ht, hn]
    intro t htm
    rcases List.mem_append.mp htm with hto | htn
    · rcases h.target_fresh t hto with ⟨m, hm, he⟩
      exact ⟨m, by omega, he⟩
    · have hts : t = t0 := by simpa using htn
      exact ⟨st.next_id, by omega, by rw [hts, hid]⟩
  · rw [hd]
    exact h.spot_status
  · rw [ht]
    intro t htm
    rcases List.mem_append.mp htm with hto | htn
    · exact h.target_status t hto
    · have hts : t = t0 := by simpa using htn
      exact Or.inl (by rw [hts, hstat])

theorem Inv.create_dragon_spot {st : GameMap} (h : Inv st) (loc dtype : String) :
    Inv (st.create_dragon_spot loc dtype).2 := by
  unfold GameMap.create_dragon_spot
  exact h.append_spot
    { id := mkDragonId st.next_id, location := st.canonical_location_name loc,
      coordinates := (st.resolve_location loc).1, dragon_type := dtype,
      status := "active" }
    rfl rfl (by simp) (by simp) (by simp)

theorem Inv.create_target {st : GameMap} (h : Inv st) (loc lid : Option String)
    (hfresh : ∀ l, lid = some l → ∀ m, l = mkDragonId m → m < st.next_id) :
    Inv (st.create_target loc lid).2 := by
  unfold GameMap.create_target
  by_cases hT : optTruthy lid = true
  · rw [if_pos hT]
    cases lid with
    | none => simp [optTruthy] at hT
    | some l0 =>
      simp only [Option.getD_some]
      cases hf : st.dragon_spots.find? (fun d => d.id == l0) with
      | none =>
        simp only [hf, Option.map_none']
        rw [if_neg (by simp [optTruthy])]
        refine h.append_target
          { id := mkTargetId st.next_id, location := "",
            linked_dragon_spot_id := some l0, status := "active", coordinates := none }
          rfl rfl ?_ ?_ (by simp) (by simp) (by simp)
        · intro d hdm hl
          exfalso
          have hdl : d.id = l0 := by
            have := hl.symm
            simpa using this
          have := List.find?_eq_none.mp hf d hdm
          simp [hdl] at this
        · intro l hl m hm
          exact hfresh l (by simpa using hl) m hm
      | some d0 =>
        simp only [hf, Option.map_some', Option.getD_some]
        have hd0mem : d0 ∈ st.dragon_spots := List.mem_of_find?_eq_some hf
        have hd0id : d0.id = l0 := by
          have := List.find?_some hf
          simpa using this
        have hloc0 : ∀ d ∈ st.dragon_spots, (some l0 : Option String) = some d.id →
            d0.location = d.location := by
          intro d hdm hl
          have hdl : d.id = l0 := by
            have := hl.symm
            simpa using this
          have hdd : d = d0 :=
            List.inj_on_of_nodup_map h.spot_nodup hdm hd0mem (by rw [hdl, hd0id])
          rw [hdd]
        by_cases hLoc : optTruthy (some d0.location) = true
        · rw [if_pos hLoc]
          refine h.append_target
            { id := mkTargetId st.next_id, location := d0.location,
              linked_dragon_spot_id := some l0, status := "active",
              coordinates := some d0.coordinates }
            rfl rfl ?_ ?_ (by simp) (by simp) (by simp)
          · intro d hdm hl
            exact hloc0 d hdm hl
          · intro l hl m hm
            exact hfresh l (by simpa using hl) m hm
        · rw [if_neg hLoc]
          refine h.append_target
            { id := mkTargetId st.next_id, location := d0.location,
              linked_dragon_spot_id := some l0, status := "active",
              coordinates := none }
            rfl rfl ?_ ?_ (by simp) (by simp) (by simp)
          · intro d hdm hl
            exact hloc0 d hdm hl
          · intro l hl m hm
            exact hfresh l (by simpa using hl) m hm
  · rw [if_neg hT]
    by_cases hL : optTruthy loc = true
    · rw [if_pos hL]
      refine h.append_target
        { id := mkTargetId st.next_id, location := st.canonical_location_name (loc.getD ""),
          linked_dragon_spot_id := none, status := "active",
          coordinates := some (st.resolve_location (loc.getD "")).1 }
        rfl rfl ?_ ?_ (by simp) (by simp) (by simp)
      · intro d _ hl
        simp at hl
      · intro l hl
        simp at hl
    · rw [if_neg hL]
      refine h.append_target
        { id := mkTargetId st.next_id, location := st.canonical_location_name (loc.getD ""),
          linked_dragon_spot_id := none, status := "active", coordinates := none }
        rfl rfl ?_ ?_ (by simp) (by simp) (by simp)
      · intro d _ hl
        simp at hl
      · intro l hl
        simp at hl

theorem mem_updateFirst2 {p : α → Bool} {f : α → α} {l : List α} {x : α}
    (hx : x ∈ updateFirst p f l) : ∃ a, a ∈ l ∧ (x = a ∨ (p a = true ∧ x = f a)) := by
  induction l with
  | nil => simp [updateFirst] at hx
  | cons b bs ih =>
    by_cases hb : p b = true
    · rw [updateFirst, if_pos hb] at hx
      rcases List.mem_cons.mp hx with h | h
      · exact ⟨b, List.mem_cons_self b bs, Or.inr ⟨hb, h⟩⟩
      · exact ⟨x, List.mem_cons_of_mem b h, Or.inl rfl⟩
    · rw [updateFirst, if_neg hb] at hx
      rcases List.mem_cons.mp hx with h | h
      · exact ⟨b, List.mem_cons_self b bs, Or.inl h⟩
      · rcases ih h with ⟨a, ha, hxa⟩
        exact ⟨a, List.mem_cons_of_mem b ha, hxa⟩

@[simp] theorem neutralize_target_targets (st : GameMap) (t : Target) :
    (st.neutralize_target t).targets =
      updateFirst (fun x => x.id == t.id) (fun x => { x with status := "neutralized" })
        st.targets := rfl

@[simp] theorem neutralize_target_next_id (st : GameMap) (t : Target) :
    (st.neutralize_target t).next_id = st.next_id := rfl

theorem neutralize_spots_none (st : GameMap) (i lo s : String) (c : Option (Int × Int)) :
    (st.neutralize_target ⟨i, lo, none, s, c⟩).dragon_spots = st.dragon_spots := rfl

theorem neutralize_spots_some (st : GameMap) (i lo l s : String) (c : Option (Int × Int)) :
    (st.neutralize_target ⟨i, lo, some l, s, c⟩).dragon_spots =
      (if l.isEmpty = true then st.dragon_spots
       else updateFirst (fun d => d.id == l) (fun d => { d with status := "neutralized" })
         st.dragon_spots) := rfl

theorem mem_neutralize_spots {st : GameMap} {t : Target} {y : DragonSpot}
    (hy : y ∈ (st.neutralize_target t).dragon_spots) :
    ∃ b, b ∈ st.dragon_spots ∧ (y = b ∨ y = { b with status := "neutralized" }) := by
  obtain ⟨i, lo, lnk, s, c⟩ := t
  cases lnk with
  | none =>
    rw [neutralize_spots_none] at hy
    exact ⟨y, hy, Or.inl rfl⟩
  | some l =>
    rw [neutralize_spots_some] at hy
    by_cases hE : l.isEmpty = true
    · rw [if_pos hE] at hy
      exact ⟨y, hy, Or.inl rfl⟩
    · rw [if_neg hE] at hy
      exact mem_updateFirst hy

theorem neutralize_spots_map_id (st : GameMap) (t : Target) :
    (st.neutralize_target t).dragon_spots.map DragonSpot.id =
      st.dragon_spots.map DragonSpot.id := by
  obtain ⟨i, lo, lnk, s, c⟩ := t
  cases lnk with
  | none => rw [neutralize_spots_none]
  | some l =>
    rw [neutralize_spots_some]
    by_cases hE : l.isEmpty = true
    · rw [if_pos hE]
    · rw [if_neg hE]
      exact map_updateFirst (fun a => rfl)

theorem mem_neutralize_targets {st : GameMap} {t x : Target}
    (hx : x ∈ (st.neutralize_target t).targets) :
    ∃ a ∈ st.targets, x.id = a.id ∧ x.location = a.location ∧
      x.linked_dragon_spot_id = a.linked_dragon_spot_id := by
  rw [neutralize_target_targets] at hx
  rcases mem_updateFirst hx with ⟨a, ha, hxa | hxa⟩
  · exact ⟨a, ha, by rw [hxa], by rw [hxa], by rw [hxa]⟩
  · exact ⟨a, ha, by rw [hxa], by rw [hxa], by rw [hxa]⟩

theorem Inv.neutralize_target {st : GameMap} (h : Inv st) (t : Target)
    (hsame : ∀ a ∈ st.targets, a.id = t.id →
      a.linked_dragon_spot_id = t.linked_dragon_spot_id) :
    Inv (st.neutralize_target t) := by
  have htgts : ∀ x ∈ (st.neutralize_target t).targets,
      ∃ a, a ∈ st.targets ∧
        (x = a ∨ (a.id = t.id ∧ x = { a with status := "neutralized" })) := by
    intro x hx
    rw [neutralize_target_targets] at hx
    rcases mem_updateFirst2 hx with ⟨a, ha, hxa | ⟨hpa, hxa⟩⟩
    · exact ⟨a, ha, Or.inl hxa⟩
    · exact ⟨a, ha, Or.inr ⟨eq_of_beq hpa, hxa⟩⟩
  have hkey : ∀ d' ∈ (st.neutralize_target t).dragon_spots,
      t.linked_dragon_spot_id = some d'.id →
      (∃ b0, b0 ∈ st.dragon_spots ∧ b0.id = d'.id) →
      d'.status = "neutralized" := by
    obtain ⟨i, lo, lnk, s, c⟩ := t
    intro d' hd' hL hb0ex
    rcases hb0ex with ⟨b0, hb0, hb0id⟩
    have hne : d'.id.isEmpty = false := by
      rcases h.spot_fresh b0 hb0 with ⟨m, _, he⟩
      rw [← hb0id, he]
      exact mkDragonId_isEmpty m
    have hlnk : lnk = some d'.id := hL
    subst hlnk
    rw [neutralize_spots_some, if_neg (by simp [hne])] at hd'
    rcases @mem_updateFirst_key _ DragonSpot.id _ _ _ _ h.spot_nodup hd' rfl with ⟨b, _, _, hdb⟩
    rw [hdb]
  constructor
  · intro t' ht' d' hd' hl
    rcases htgts t' ht' with ⟨a, ha, hta⟩
    rcases mem_neutralize_spots hd' with ⟨b, hb, hdb⟩
    have hta_loc : t'.location = a.location := by
      rcases hta with h1 | ⟨_, h1⟩ <;> rw [h1]
    have hta_lnk : t'.linked_dragon_spot_id = a.linked_dragon_spot_id := by
      rcases hta with h1 | ⟨_, h1⟩ <;> rw [h1]
    have hdb_id : d'.id = b.id := by rcases hdb with h1 | h1 <;> rw [h1]
    have hdb_loc : d'.location = b.location := by rcases hdb with h1 | h1 <;> rw [h1]
    have hab : a.linked_dragon_spot_id = some b.id := by rw [← hta_lnk, hl, hdb_id]
    rw [hta_loc, hdb_loc]
    exact h.link_loc a ha b hb hab
  · intro t' ht' d' hd' hl hs
    rcases htgts t' ht' with ⟨a, ha, hta | ⟨haid, hta⟩⟩
    · rcases mem_neutralize_spots hd' with ⟨b, hb, hdb | hdb⟩
      · have hstat := h.link_status a ha b hb
          (by rw [← hta, hl, hdb]) (by rw [← hta]; exact hs)
        rw [hdb]
        exact hstat
      · rw [hdb]
        simp
    · have hLl : t.linked_dragon_spot_id = some d'.id := by
        rw [← hsame a ha haid, ← hl, hta]
      rcases mem_neutralize_spots hd' with ⟨b, hb, hdb⟩
      have hbid : b.id = d'.id := by rcases hdb with h1 | h1 <;> rw [h1]
      have : d'.status = "neutralized" := hkey d' hd' hLl ⟨b, hb, hbid⟩
      rw [this]
      simp
  · rw [neutralize_spots_map_id]
    exact h.spot_nodup
  · intro d' hd'
    rcases mem_neutralize_spots hd' with ⟨b, hb, hdb⟩
    rcases h.spot_fresh b hb with ⟨m, hm, he⟩
    refine ⟨m, by simpa using hm, ?_⟩
    rcases hdb with h1 | h1 <;> rw [h1] <;> exact he
  · intro t' ht' l hl m hm
    rcases htgts t' ht' with ⟨a, ha, hta⟩
    have hta_lnk : t'.linked_dragon_spot_id = a.linked_dragon_spot_id := by
      rcases hta with h1 | ⟨_, h1⟩ <;> rw [h1]
    have := h.link_fresh a ha l (by rw [← hta_lnk, hl]) m hm
    simpa using this
  · have e : (st.neutralize_target t).targets.map Target.id = st.targets.map Target.id := by
      rw [neutralize_target_targets]
      exact map_updateFirst (fun a => rfl)
    rw [e]
    exact h.target_nodup
  · intro t' ht'
    rcases htgts t' ht' with ⟨a, ha, hta⟩
    rcases h.target_fresh a ha with ⟨m, hm, he⟩
    refine ⟨m, by simpa using hm, ?_⟩
    rcases hta with h1 | ⟨_, h1⟩ <;> rw [h1] <;> exact he
  · intro d' hd'
    rcases mem_neutralize_spots hd' with ⟨b, hb, hdb | hdb⟩
    · rw [hdb]
      exact h.spot_status b hb
    · rw [hdb]
      simp
  · intro t' ht'
    rcases htgts t' ht' with ⟨a, ha, hta | ⟨_, hta⟩⟩
    · rw [hta]
      exact h.target_status a ha
    · rw [hta]
      simp

theorem Inv.neutralize_spots_updateFirst {st st2 : GameMap} (h : Inv st)
    (p : DragonSpot → Bool)
    (hd : st2.dragon_spots =
      updateFirst p (fun d => { d with status := "neutralized" }) st.dragon_spots)
    (ht : st2.targets = st.targets) (hn : st2.next_id = st.next_id) : Inv st2 := by
  constructor
  · rw [ht, hd]
    intro t htm d' hd' hl
    rcases mem_updateFirst hd' with ⟨b, hb, hdb⟩
    have hdb_id : d'.id = b.id := by rcases hdb with h1 | h1 <;> rw [h1]
    have hdb_loc : d'.location = b.location := by rcases hdb with h1 | h1 <;> rw [h1]
    rw [hdb_loc]
    exact h.link_loc t htm b hb (by rw [← hdb_id]; exact hl)
  · rw [ht, hd]
    intro t htm d' hd' hl hs
    rcases mem_updateFirst hd' with ⟨b, hb, hdb | hdb⟩
    · have hstat := h.link_status t htm b hb (by rw [← hdb]; exact hl) hs
      rw [hdb]
      exact hstat
    · rw [hdb]
      simp
  · rw [hd]
    have e : (updateFirst p (fun d => { d with status := "neutralized" })
        st.dragon_spots).map DragonSpot.id = st.dragon_spots.map DragonSpot.id :=
      map_updateFirst (fun a => rfl)
    rw [e]
    exact h.spot_nodup
  · rw [hd, hn]
    intro d' hd'
    rcases mem_updateFirst hd' with ⟨b, hb, hdb⟩
    rcases h.spot_fresh b hb with ⟨m, hm, he⟩
    refine ⟨m, hm, ?_⟩
    rcases hdb with h1 | h1 <;> rw [h1] <;> exact he
  · rw [ht, hn]
    exact h.link_fresh
  · rw [ht]
    exact h.target_nodup
  · rw [ht, hn]
    exact h.target_fresh
  · rw [hd]
    intro d' hd'
    rcases mem_updateFirst hd' with ⟨b, hb, hdb | hdb⟩
    · rw [hdb]
      exact h.spot_status b hb
    · rw [hdb]
      simp
  · rw [ht]
    exact h.target_status

theorem Inv.attack_loop {m : AttackMethod} (ts : List Target) : ∀ st : GameMap, Inv st →
    (∀ t' ∈ ts, ∀ a ∈ st.targets, a.id = t'.id →
      a.linked_dragon_spot_id = t'.linked_dragon_spot_id) →
    Inv (attackLoop m ts st).2 := by
  induction ts with
  | nil =>
    intro st h _
    exact h
  | cons t rest ih =>
    intro st h hts
    unfold attackLoop
    by_cases h1 : (m == AttackMethod.knight && !(st.knight_at_location t.location)) = true
    · rw [if_pos h1]
      exact h
    · rw [if_neg h1]
      by_cases h2 : (m == AttackMethod.artillery && st.trebuchets.isEmpty) = true
      · rw [if_pos h2]
        exact h
      · rw [if_neg h2]
        by_cases h3 : (m == AttackMethod.artillery) = true
        · rw [if_pos h3]
          have hA : Inv { st with
              trebuchets := [], trebuchet_cooldown := 3,
              effect_dragon_killed_by_artillery_at := some t.location } :=
            h.frame rfl rfl le_rfl
          have hA2 := hA.neutralize_target t
            (fun a ha haid => hts t (List.mem_cons_self t rest) a ha haid)
          refine ih _ hA2 ?_
          intro t' ht' a ha haid
          rcases mem_neutralize_targets ha with ⟨a0, ha0, hid, _, hlnk⟩
          rw [hlnk]
          exact hts t' (List.mem_cons_of_mem t ht') a0 ha0 (by rw [← hid, haid])
        · rw [if_neg h3]
          have hA : Inv { st with
              effect_dragon_killed_by_knight_at := some t.location } :=
            h.frame rfl rfl le_rfl
          have hA2 := hA.neutralize_target t
            (fun a ha haid => hts t (List.mem_cons_self t rest) a ha haid)
          refine ih _ hA2 ?_
          intro t' ht' a ha haid
          rcases mem_neutralize_targets ha with ⟨a0, ha0, hid, _, hlnk⟩
          rw [hlnk]
          exact hts t' (List.mem_cons_of_mem t ht') a0 ha0 (by rw [← hid, haid])

theorem Inv.attack_target {st : GameMap} (h : Inv st) (tid am : String) :
    Inv (st.attack_target tid am).2 := by
  unfold GameMap.attack_target
  cases AttackMethod.ofValue (strLower am) with
  | none => exact h
  | some m =>
    cases hft : st.targets.find? (fun t => t.id == tid) with
    | some t =>
      simp only [hft]
      refine Inv.attack_loop [t] st h ?_
      intro t' ht' a ha haid
      have ht't : t' = t := by simpa using ht'
      subst ht't
      have htm : t' ∈ st.targets := List.mem_of_find?_eq_some hft
      have haeq : a = t' := List.inj_on_of_nodup_map h.target_nodup ha htm haid
      rw [haeq]
    | none =>
      simp only [hft]
      cases hfd : st.dragon_spots.find? (fun d => d.id == tid) with
      | none =>
        simp only [hfd]
        exact h
      | some d =>
        simp only [hfd]
        by_cases hres : (st.targets.filter
            (fun t => t.linked_dragon_spot_id == some tid)).isEmpty = true
        · rw [if_pos hres]
          exact h.neutralize_spots_updateFirst (fun d2 => d2.id == tid) rfl rfl rfl
        · rw [if_neg hres]
          refine Inv.attack_loop _ st h ?_
          intro t' ht' a ha haid
          have ht'm : t' ∈ st.targets := (List.mem_filter.mp ht').1
          have haeq : a = t' := List.inj_on_of_nodup_map h.target_nodup ha ht'm haid
          rw [haeq]


/-! Lemmas about the adversary-turn stages. -/

@[simp] theorem log_game_active (st : GameMap) (m : String) :
    (st.log m).game_active = st.game_active := rfl

@[simp] theorem log_trebuchets (st : GameMap) (m : String) :
    (st.log m).trebuchets = st.trebuchets := rfl

@[simp] theorem log_cooldown (st : GameMap) (m : String) :
    (st.log m).trebuchet_cooldown = st.trebuchet_cooldown := rfl

theorem dragonMovePass_cons (locked : List String) (r : TurnRandom) (d : DragonSpot)
    (ds : List DragonSpot) (i : Nat) (st : GameMap) :
    ∃ d2 st2, dragonMovePass locked r (d :: ds) i st =
        (d2 :: (dragonMovePass locked r ds (i + 1) st2).1,
         (dragonMovePass locked r ds (i + 1) st2).2) ∧
      d2.id = d.id ∧ d2.status = d.status ∧
      (d2 = d ∨ (d.status = "active" ∧ locked.contains d.id = false)) ∧
      st2.targets = st.targets ∧ st2.dragon_spots = st.dragon_spots ∧
      st2.next_id = st.next_id ∧ st2.knights = st.knights ∧
      st2.trebuchets = st.trebuchets ∧ st2.trebuchet_cooldown = st.trebuchet_cooldown ∧
      st2.game_active = st.game_active := by
  rw [dragonMovePass]
  by_cases h1 : (d.status == "active" && !(locked.contains d.id) && r.move_roll i) = true
  · have hcond : d.status = "active" ∧ locked.contains d.id = false := by
      have h1a : (d.status == "active") = true ∧ (!(locked.contains d.id)) = true ∧
          r.move_roll i = true := by
        simpa [Bool.and_eq_true, and_assoc] using h1
      exact ⟨eq_of_beq h1a.1, by simpa using h1a.2.1⟩
    rw [if_pos h1]
    by_cases h2 : (st.other_locations d.location).isEmpty = true
    · rw [if_pos h2]
      exact ⟨d, st, rfl, rfl, rfl, Or.inl rfl, rfl, rfl, rfl, rfl, rfl, rfl, rfl⟩
    · rw [if_neg h2]
      refine ⟨_, _, rfl, rfl, rfl, Or.inr hcond, ?_, ?_, ?_, ?_, ?_, ?_, ?_⟩ <;> simp
  · rw [if_neg h1]
    exact ⟨d, st, rfl, rfl, rfl, Or.inl rfl, rfl, rfl, rfl, rfl, rfl, rfl, rfl⟩

theorem dragonMovePass_frame (locked : List String) (r : TurnRandom) :
    ∀ (ds : List DragonSpot) (i : Nat) (st : GameMap),
      (dragonMovePass locked r ds i st).2.targets = st.targets ∧
      (dragonMovePass locked r ds i st).2.next_id = st.next_id ∧
      (dragonMovePass locked r ds i st).2.knights = st.knights ∧
      (dragonMovePass locked r ds i st).2.trebuchets = st.trebuchets ∧
      (dragonMovePass locked r ds i st).2.trebuchet_cooldown = st.trebuchet_cooldown ∧
      (dragonMovePass locked r ds i st).2.game_active = st.game_active := by
  intro ds
  induction ds with
  | nil => intro i st; exact ⟨rfl, rfl, rfl, rfl, rfl, rfl⟩
  | cons d ds ih =>
    intro i st
    rcases dragonMovePass_cons locked r d ds i st with
      ⟨d2, st2, heq, -, -, -, e1, e2, e3, e4, e5, e6, e7⟩
    rw [heq]
    rcases ih (i + 1) st2 with ⟨f1, f2, f3, f4, f5, f6⟩
    refine ⟨?_, ?_, ?_, ?_, ?_, ?_⟩
    · show (dragonMovePass locked r ds (i + 1) st2).2.targets = st.targets
      rw [f1, e1]
    · show (dragonMovePass locked r ds (i + 1) st2).2.next_id = st.next_id
      rw [f2, e3]
    · show (dragonMovePass locked r ds (i + 1) st2).2.knights = st.knights
      rw [f3, e4]
    · show (dragonMovePass locked r ds (i + 1) st2).2.trebuchets = st.trebuchets
      rw [f4, e5]
    · show (dragonMovePass locked r ds (i + 1) st2).2.trebuchet_cooldown =
        st.trebuchet_cooldown
      rw [f5, e6]
    · show (dragonMovePass locked r ds (i + 1) st2).2.game_active = st.game_active
      rw [f6, e7]

theorem dragonMovePass_map_id (locked : List String) (r : TurnRandom) :
    ∀ (ds : List DragonSpot) (i : Nat) (st : GameMap),
      (dragonMovePass locked r ds i st).1.map DragonSpot.id = ds.map DragonSpot.id := by
  intro ds
  induction ds with
  | nil => intro i st; rfl
  | cons d ds ih =>
    intro i st
    rcases dragonMovePass_cons locked r d ds i st with
      ⟨d2, st2, heq, hid, _, _, _, _, _, _, _, _, _⟩
    rw [heq]
    show d2.id :: (dragonMovePass locked r ds (i + 1) st2).1.map DragonSpot.id =
      d.id :: ds.map DragonSpot.id
    rw [hid, ih (i + 1) st2]

theorem mem_dragonMovePass (locked : List String) (r : TurnRandom) :
    ∀ (ds : List DragonSpot) (i : Nat) (st : GameMap),
      ∀ d' ∈ (dragonMovePass locked r ds i st).1,
        ∃ d, d ∈ ds ∧ d'.id = d.id ∧ d'.status = d.status ∧
          (d' = d ∨ (d.status = "active" ∧ locked.contains d.id = false)) := by
  intro ds
  induction ds with
  | nil => intro i st d' hd'; simp [dragonMovePass] at hd'
  | cons d ds ih =>
    intro i st d' hd'
    rcases dragonMovePass_cons locked r d ds i st with
      ⟨d2, st2, heq, hid, hstat, hmov, _, _, _, _, _, _, _⟩
    rw [heq] at hd'
    replace hd' : d' ∈ d2 :: (dragonMovePass locked r ds (i + 1) st2).1 := hd'
    rcases List.mem_cons.mp hd' with h | h
    · subst h
      exact ⟨d, List.mem_cons_self d ds, hid, hstat, by
        rcases hmov with h1 | h1
        · exact Or.inl h1
        · exact Or.inr h1⟩
    · rcases ih (i + 1) st2 d' h with ⟨d0, hd0, ha, hb, hc⟩
      exact ⟨d0, List.mem_cons_of_mem d hd0, ha, hb, hc⟩

theorem combatPass_frame : ∀ (ds : List DragonSpot) (st : GameMap),
    (combatPass ds st).targets = st.targets ∧
    (combatPass ds st).dragon_spots = st.dragon_spots ∧
    (combatPass ds st).next_id = st.next_id ∧
    (combatPass ds st).trebuchets = st.trebuchets ∧
    (combatPass ds st).trebuchet_cooldown = st.trebuchet_cooldown ∧
    (combatPass ds st).game_active = st.game_active ∧
    (combatPass ds st).locations = st.locations := by
  intro ds
  induction ds with
  | nil => intro st; exact ⟨rfl, rfl, rfl, rfl, rfl, rfl, rfl⟩
  | cons d ds ih =>
    intro st
    rw [combatPass]
    by_cases h1 : (d.status == "active") = true
    · rw [if_pos h1]
      exact ⟨(ih _).1, (ih _).2.1, (ih _).2.2.1, (ih _).2.2.2.1, (ih _).2.2.2.2.1,
        (ih _).2.2.2.2.2.1, (ih _).2.2.2.2.2.2⟩
    · rw [if_neg h1]
      exact ih st

theorem Inv.enemy_prelude {st : GameMap} (h : Inv st) : Inv (enemyPrelude st) :=
  h.frame rfl rfl le_rfl

theorem Inv.enemy_move {st : GameMap} (h : Inv st) (r : TurnRandom) :
    Inv (enemyMove st r) := by
  obtain ⟨f1, f2, f3, f4, f5, f6⟩ :=
    dragonMovePass_frame (lockedIds st) r st.dragon_spots 0 st
  have hTs : (enemyMove st r).targets = st.targets := f1
  have hN : (enemyMove st r).next_id = st.next_id := f2
  have hDs : (enemyMove st r).dragon_spots =
      (dragonMovePass (lockedIds st) r st.dragon_spots 0 st).1 := rfl
  have hnolink : ∀ t ∈ st.targets, ∀ d ∈ st.dragon_spots,
      t.linked_dragon_spot_id = some d.id → d.status = "active" →
      (lockedIds st).contains d.id = false → False := by
    intro t ht d hdm hlid hact hnc
    have hne : d.id.isEmpty = false := by
      rcases h.spot_fresh d hdm with ⟨m, _, he⟩
      rw [he]
      exact mkDragonId_isEmpty m
    rcases h.target_status t ht with hts | hts
    · have hmem : d.id ∈ lockedIds st := by
        refine List.mem_filterMap.mpr ⟨t, ?_, hlid⟩
        refine List.mem_filter.mpr ⟨ht, ?_⟩
        rw [hlid, hts]
        simp [optTruthy, hne]
      have hc2 : (lockedIds st).contains d.id = true := List.elem_iff.mpr hmem
      rw [hc2] at hnc
      cases hnc
    · have : d.status ≠ "active" :=
        h.link_status t ht d hdm hlid (by rw [hts]; decide)
      exact this hact
  constructor
  · intro t ht d' hd' hl
    rw [hTs] at ht
    rw [hDs] at hd'
    rcases mem_dragonMovePass _ r _ 0 st d' hd' with ⟨d, hdm, hid, _, hmov⟩
    rcases hmov with hdd | ⟨hact, hnc⟩
    · rw [hdd] at hl ⊢
      exact h.link_loc t ht d hdm hl
    · exact (hnolink t ht d hdm (by rw [← hid]; exact hl) hact hnc).elim
  · intro t ht d' hd' hl hs
    rw [hTs] at ht
    rw [hDs] at hd'
    rcases mem_dragonMovePass _ r _ 0 st d' hd' with ⟨d, hdm, hid, hstat, hmov⟩
    rcases hmov with hdd | ⟨hact, hnc⟩
    · rw [hdd] at hl ⊢
      exact h.link_status t ht d hdm hl hs
    · exact (hnolink t ht d hdm (by rw [← hid]; exact hl) hact hnc).elim
  · rw [hDs, dragonMovePass_map_id]
    exact h.spot_nodup
  · intro d' hd'
    rw [hDs] at hd'
    rcases mem_dragonMovePass _ r _ 0 st d' hd' with ⟨d, hdm, hid, _, _⟩
    rcases h.spot_fresh d hdm with ⟨m, hm, he⟩
    exact ⟨m, by rw [hN]; exact hm, by rw [hid, he]⟩
  · intro t ht l hl m hm
    rw [hTs] at ht
    rw [hN]
    exact h.link_fresh t ht l hl m hm
  · rw [hTs]
    exact h.target_nodup
  · intro t ht
    rw [hTs] at ht
    rcases h.target_fresh t ht with ⟨m, hm, he⟩
    exact ⟨m, by rw [hN]; exact hm, he⟩
  · intro d' hd'
    rw [hDs] at hd'
    rcases mem_dragonMovePass _ r _ 0 st d' hd' with ⟨d, hdm, _, hstat, _⟩
    rw [hstat]
    exact h.spot_status d hdm
  · intro t ht
    rw [hTs] at ht
    exact h.target_status t ht

theorem Inv.enemy_combat {st : GameMap} (h : Inv st) : Inv (enemyCombat st) := by
  obtain ⟨f1, f2, f3, _, _, _, _⟩ := combatPass_frame st.dragon_spots st
  exact h.frame f1 f2 (le_of_eq f3.symm)

theorem Inv.enemy_grace {st : GameMap} (h : Inv st) : Inv (enemyGraceClear st) :=
  h.frame rfl rfl le_rfl

theorem Inv.enemy_spawn {st : GameMap} (h : Inv st) (r : TurnRandom) :
    Inv (enemySpawn st r) := by
  unfold enemySpawn
  by_cases hs : (!(spawnLocs st).isEmpty && r.spawn_roll) = true
  · rw [if_pos hs]
    exact h.append_spot
      { id := mkDragonId st.next_id,
        location := (spawnLocs st).getD (r.spawn_choice % (spawnLocs st).length) "",
        coordinates := (st.resolve_location
          ((spawnLocs st).getD (r.spawn_choice % (spawnLocs st).length) "")).1,
        dragon_type := "fire", status := "active" }
      rfl rfl (by simp) (by simp) (by simp)
  · rw [if_neg hs]
    exact h

theorem Inv.enemy_cooldown {st : GameMap} (h : Inv st) : Inv (enemyCooldown st) := by
  unfold enemyCooldown
  by_cases hc : st.trebuchet_cooldown > 0
  · rw [if_pos hc]
    exact h.frame rfl rfl le_rfl
  · rw [if_neg hc]
    exact h

theorem Inv.process_enemy_turn {st : GameMap} (h : Inv st) (r : TurnRandom) :
    Inv (st.process_enemy_turn r) := by
  unfold GameMap.process_enemy_turn
  by_cases hg : (!st.game_active) = true
  · rw [if_pos hg]
    exact h
  · rw [if_neg hg]
    exact ((((h.enemy_prelude.enemy_move r).enemy_combat).enemy_grace).enemy_spawn r).enemy_cooldown

theorem Inv.init : Inv GameMap.init := by
  constructor <;> simp [GameMap.init]

/-- Every reachable state satisfies the invariant. -/
theorem reachable_inv {st : GameMap} (h : Reachable st) : Inv st := by
  induction h with
  | init => exact Inv.init
  | move_knight st loc kn _ ih => exact ih.move_knight loc kn
  | add_knight st name loc _ ih => exact ih.add_knight name loc
  | delete_knight st kid _ ih => exact ih.delete_knight kid
  | create_dragon_spot st loc dtype _ ih => exact ih.create_dragon_spot loc dtype
  | delete_dragon_spot st did _ ih => exact ih.delete_dragon_spot did
  | create_trebuchet st loc _ ih => exact ih.create_trebuchet loc
  | create_target st loc lid hfresh _ ih => exact ih.create_target loc lid hfresh
  | delete_target st tid _ ih => exact ih.delete_target tid
  | attack_target st tid method _ ih => exact ih.attack_target tid method
  | process_enemy_turn st r _ ih => exact ih.process_enemy_turn r
  | set_game_active st b _ ih => exact ih.set_game_active b
  | log_player_action st m _ ih => exact ih.log_player_action m
  | take_effects st _ ih => exact ih.take_effects


/-! Support lemmas for the claim theorems. -/

theorem process_enemy_turn_of_inactive (st : GameMap) (r : TurnRandom)
    (h : st.game_active = false) : st.process_enemy_turn r = st := by
  unfold GameMap.process_enemy_turn
  rw [h]
  rfl

theorem process_enemy_turn_of_active (st : GameMap) (r : TurnRandom)
    (h : st.game_active = true) :
    st.process_enemy_turn r =
      enemyCooldown
        (enemySpawn (enemyGraceClear (enemyCombat (enemyMove (enemyPrelude st) r))) r) := by
  unfold GameMap.process_enemy_turn
  rw [h]
  rfl

theorem attackLoop_artillery_fail {st : GameMap} (t : Target) (rest : List Target)
    (htreb : st.trebuchets = []) :
    attackLoop AttackMethod.artillery (t :: rest) st =
      ("Cannot attack with artillery: no trebuchet on the map. Build one first (when cooldown allows).",
       st) := by
  rw [attackLoop]
  rw [if_neg (by simp [show (AttackMethod.artillery == AttackMethod.knight) = false from rfl])]
  rw [if_pos (by rw [htreb]; rfl)]

theorem attackLoop_artillery_success {st : GameMap} (t : Target) (rest : List Target)
    (htreb : st.trebuchets ≠ []) :
    attackLoop AttackMethod.artillery (t :: rest) st =
      attackLoop AttackMethod.artillery rest
        (({ st with
            trebuchets := [], trebuchet_cooldown := 3,
            effect_dragon_killed_by_artillery_at := some t.location }).neutralize_target t) := by
  have hie : st.trebuchets.isEmpty = false := by
    cases hx : st.trebuchets with
    | nil => exact absurd hx htreb
    | cons a l => rfl
  rw [attackLoop]
  rw [if_neg (by simp [show (AttackMethod.artillery == AttackMethod.knight) = false from rfl])]
  rw [if_neg (by simp [hie])]
  rw [if_pos (by rfl)]

theorem neutralize_spots_of_linked {st : GameMap} {t : Target} {l : String}
    (hl : t.linked_dragon_spot_id = some l) (hne : l.isEmpty = false) :
    (st.neutralize_target t).dragon_spots =
      updateFirst (fun d => d.id == l) (fun d => { d with status := "neutralized" })
        st.dragon_spots := by
  obtain ⟨i, lo, lnk, s, c⟩ := t
  have hlnk : lnk = some l := hl
  subst hlnk
  rw [neutralize_spots_some, if_neg (by simp [hne])]

theorem combatPass_knights_sub : ∀ (ds : List DragonSpot) (st : GameMap) (k : Knight),
    k ∈ (combatPass ds st).knights → k ∈ st.knights := by
  intro ds
  induction ds with
  | nil => intro st k hk; exact hk
  | cons d ds ih =>
    intro st k hk
    rw [combatPass] at hk
    by_cases h1 : (d.status == "active") = true
    · rw [if_pos h1] at hk
      have h2 := ih _ k hk
      replace h2 : k ∈ st.knights.filter
        (fun k2 => !(k2.location == d.location && !k2.grace_turn)) := h2
      exact (List.mem_filter.mp h2).1
    · rw [if_neg h1] at hk
      exact ih _ k hk

theorem combatPass_grace_kept : ∀ (ds : List DragonSpot) (st : GameMap) (k : Knight),
    k ∈ st.knights → k.grace_turn = true → k ∈ (combatPass ds st).knights := by
  intro ds
  induction ds with
  | nil => intro st k hk _; exact hk
  | cons d ds ih =>
    intro st k hk hg
    rw [combatPass]
    by_cases h1 : (d.status == "active") = true
    · rw [if_pos h1]
      refine ih _ k ?_ hg
      show k ∈ st.knights.filter (fun k2 => !(k2.location == d.location && !k2.grace_turn))
      exact List.mem_filter.mpr ⟨hk, by simp [hg]⟩
    · rw [if_neg h1]
      exact ih _ k hk hg

theorem combatPass_kills : ∀ (ds : List DragonSpot) (d : DragonSpot), d ∈ ds →
    d.status = "active" → ∀ (st : GameMap) (k : Knight), k ∈ (combatPass ds st).knights →
    ¬(k.location = d.location ∧ k.grace_turn = false) := by
  intro ds
  induction ds with
  | nil => intro d hd; simp at hd
  | cons d0 ds ih =>
    intro d hd hact st k hk
    rw [combatPass] at hk
    rcases List.mem_cons.mp hd with hdd | hdd
    · rw [hdd] at hact ⊢
      rw [if_pos (by simp [hact])] at hk
      have hk1 := combatPass_knights_sub ds _ k hk
      replace hk1 : k ∈ st.knights.filter
        (fun k2 => !(k2.location == d0.location && !k2.grace_turn)) := hk1
      have hcond := (List.mem_filter.mp hk1).2
      rintro ⟨hloc, hgr⟩
      simp [hloc, hgr] at hcond
    · by_cases h1 : (d0.status == "active") = true
      · rw [if_pos h1] at hk
        exact ih d hdd hact _ k hk
      · rw [if_neg h1] at hk
        exact ih d hdd hact _ k hk

theorem enemyMove_knights (st : GameMap) (r : TurnRandom) :
    (enemyMove st r).knights = st.knights :=
  (dragonMovePass_frame (lockedIds st) r st.dragon_spots 0 st).2.2.1

theorem dragonMovePass_noMove (locked : List String) :
    ∀ (ds : List DragonSpot) (i : Nat) (st : GameMap),
      dragonMovePass locked rNone ds i st = (ds, st) := by
  intro ds
  induction ds with
  | nil => intro i st; rfl
  | cons d ds ih =>
    intro i st
    rw [dragonMovePass]
    rw [if_neg (by simp [rNone])]
    show (d :: (dragonMovePass locked rNone ds (i + 1) st).1,
      (dragonMovePass locked rNone ds (i + 1) st).2) = (d :: ds, st)
    rw [ih (i + 1) st]

theorem enemyMove_rNone (st : GameMap) : enemyMove st rNone = st := by
  unfold enemyMove
  rw [dragonMovePass_noMove]

theorem enemySpawn_knights (st : GameMap) (r : TurnRandom) :
    (enemySpawn st r).knights = st.knights := by
  unfold enemySpawn
  by_cases hs : (!(spawnLocs st).isEmpty && r.spawn_roll) = true
  · rw [if_pos hs]
    simp
  · rw [if_neg hs]

theorem enemyCooldown_knights (st : GameMap) :
    (enemyCooldown st).knights = st.knights := by
  unfold enemyCooldown
  by_cases hc : st.trebuchet_cooldown > 0
  · rw [if_pos hc]
  · rw [if_neg hc]

theorem fresh_dragon0 (st : GameMap) (h : 0 < st.next_id) :
    ∀ l, (some (mkDragonId 0) : Option String) = some l →
      ∀ m, l = mkDragonId m → m < st.next_id := by
  intro l hls m hm
  have hl0 : l = mkDragonId 0 := (Option.some.inj hls).symm
  rw [hl0] at hm
  rw [← mkDragonId_inj hm]
  exact h

theorem demoSpotState_next_id : demoSpotState.next_id = 1 := rfl

theorem c4State2_next_id : c4State2.next_id = 2 := rfl

theorem c4State4_next_id : c4State4.next_id = 3 := rfl

theorem demoSpotState_reachable : Reachable demoSpotState :=
  Reachable.create_dragon_spot GameMap.init "Village" "fire" Reachable.init

theorem demoLinkedState_reachable : Reachable demoLinkedState :=
  Reachable.create_target demoSpotState none (some (mkDragonId 0))
    (fresh_dragon0 demoSpotState (by rw [demoSpotState_next_id]; exact Nat.one_pos))
    demoSpotState_reachable

theorem c4State5_reachable : Reachable c4State5 :=
  Reachable.create_target c4State4 none (some (mkDragonId 0))
    (fresh_dragon0 c4State4 (by rw [c4State4_next_id]; exact Nat.succ_pos 2))
    (Reachable.attack_target c4State3 (mkTargetId 2) "knight"
      (Reachable.create_target c4State2 none (some (mkDragonId 0))
        (fresh_dragon0 c4State2 (by rw [c4State2_next_id]; exact Nat.succ_pos 1))
        (Reachable.add_knight demoSpotState "K" "Village" demoSpotState_reachable)))


/-! The claim theorems.  Each is stated against the embedded operations above;
corrected claims carry a concrete counterexample theorem alongside the amended
statement. -/

/-- Claim C1 (corrected): the claimed "Cannot attack with knight" failure does
not happen for a dragon spot with no linked target — even with no knight at
the spot's location, `attack_target(spot id, "knight")` neutralizes the spot
directly and reports success, leaving the target list unchanged. -/
theorem attack_knight_unlinked_spot_direct (st : GameMap) (did : String) (d : DragonSpot)
    (hnt : st.targets.find? (fun t => t.id == did) = none)
    (hfd : st.dragon_spots.find? (fun x => x.id == did) = some d)
    (hnl : ∀ t ∈ st.targets, t.linked_dragon_spot_id ≠ some did)
    (_hnk : st.knight_at_location d.location = false) :
    st.attack_target did "knight" =
      ("Dragon spot " ++ did ++ " neutralized (" ++ "knight" ++ ").",
       { st with
         dragon_spots := updateFirst (fun x => x.id == did)
           (fun x => { x with status := "neutralized" }) st.dragon_spots }) ∧
    ((st.attack_target did "knight").2.dragon_spots.find? (fun x => x.id == did)).map
      DragonSpot.status = some "neutralized" ∧
    (st.attack_target did "knight").2.targets = st.targets := by
  have hm : AttackMethod.ofValue (strLower "knight") = some AttackMethod.knight := rfl
  have hfil : st.targets.filter (fun t => t.linked_dragon_spot_id == some did) = [] := by
    rw [List.filter_eq_nil_iff]
    intro t ht
    simpa using hnl t ht
  have hres : (st.targets.filter
      (fun t => t.linked_dragon_spot_id == some did)).isEmpty = true := by
    rw [hfil]
    rfl
  have hmain : st.attack_target did "knight" =
      ("Dragon spot " ++ did ++ " neutralized (" ++ "knight" ++ ").",
       { st with
         dragon_spots := updateFirst (fun x => x.id == did)
           (fun x => { x with status := "neutralized" }) st.dragon_spots }) := by
    unfold GameMap.attack_target
    rw [hm]
    simp only [hnt, hfd]
    rw [if_pos hres]
    rfl
  refine ⟨hmain, ?_, ?_⟩
  · rw [hmain]
    show ((updateFirst (fun x => x.id == did) (fun x => { x with status := "neutralized" })
        st.dragon_spots).find? (fun x => x.id == did)).map DragonSpot.status =
      some "neutralized"
    have he : (updateFirst (fun x => x.id == did) (fun x => { x with status := "neutralized" })
        st.dragon_spots).find? (fun x => x.id == did) =
        some ((fun x => { x with status := "neutralized" }) d) :=
      find?_updateFirst hfd (by simpa using List.find?_some hfd)
    rw [he]
    rfl
  · rw [hmain]

/-- Claim C1 witness: the direct-neutralize behaviour at the concrete state
with one unlinked Village spot and no knights. -/
theorem attack_knight_unlinked_spot_direct_witness :
    demoSpotState.attack_target (mkDragonId 0) "knight" =
      ("Dragon spot " ++ mkDragonId 0 ++ " neutralized (" ++ "knight" ++ ").",
       { demoSpotState with
         dragon_spots := updateFirst (fun x => x.id == mkDragonId 0)
           (fun x => { x with status := "neutralized" }) demoSpotState.dragon_spots }) ∧
    ((demoSpotState.attack_target (mkDragonId 0) "knight").2.dragon_spots.find?
      (fun x => x.id == mkDragonId 0)).map DragonSpot.status = some "neutralized" ∧
    (demoSpotState.attack_target (mkDragonId 0) "knight").2.targets =
      demoSpotState.targets :=
  attack_knight_unlinked_spot_direct demoSpotState (mkDragonId 0)
    ⟨mkDragonId 0, "Village", (44, 24), "fire", "active"⟩
    (by decide) (by decide) (by decide) (by decide)

/-- Claim C1 counterexample: no knight stands at "Village" and no target is
linked, yet the knight attack on the spot succeeds (no "Cannot attack with
knight" failure) and the spot is neutralized. -/
theorem attack_knight_unlinked_spot_counterexample :
    demoSpotState.knight_at_location "Village" = false ∧
    demoSpotState.targets = [] ∧
    (demoSpotState.attack_target (mkDragonId 0) "knight").1 =
      "Dragon spot dragon- neutralized (knight)." ∧
    (demoSpotState.attack_target (mkDragonId 0) "knight").2.dragon_spots.map
      DragonSpot.status = ["neutralized"] :=
  ⟨by decide, by decide, by decide, by decide⟩

/-- Claim C2 (corrected): `snapshot` is a pure read that mirrors exactly the
ten listed fields — it carries no effect values and clears nothing; the
read-and-clear of the three one-shot effect fields happens in the API layer
(`_state_for_api`, modelled by `takeEffects`), whose second read yields
nothing and which changes no other field visible to `snapshot`. -/
theorem snapshot_fields_and_api_effect_clear (st : GameMap) :
    st.snapshot =
      { locations := st.locations.map (fun kv => kv.1), knights := st.knights,
        dragon_spots := st.dragon_spots, targets := st.targets,
        trebuchets := st.trebuchets, game_active := st.game_active,
        turn_count := st.turn_count, trebuchet_cooldown := st.trebuchet_cooldown,
        trebuchet_available := (st.trebuchet_cooldown == 0 && st.trebuchets.isEmpty),
        turn_logs := st.turn_logs } ∧
    takeEffects st =
      ((st.effect_knight_killed_at, st.effect_dragon_killed_by_knight_at,
        st.effect_dragon_killed_by_artillery_at),
       { st with
         effect_knight_killed_at := none,
         effect_dragon_killed_by_knight_at := none,
         effect_dragon_killed_by_artillery_at := none }) ∧
    (takeEffects (takeEffects st).2).1 = (none, none, none) ∧
    GameMap.snapshot (takeEffects st).2 = GameMap.snapshot st :=
  ⟨rfl, rfl, rfl, rfl⟩

/-- Claim C2 counterexample: two states that differ only in a one-shot effect
field have identical snapshots, so the snapshot neither contains nor clears
the effect values. -/
theorem snapshot_effects_counterexample :
    GameMap.snapshot { GameMap.init with effect_knight_killed_at := some "Village" } =
      GameMap.snapshot GameMap.init ∧
    ({ GameMap.init with effect_knight_killed_at := some "Village" } : GameMap) ≠
      GameMap.init :=
  ⟨rfl, by decide⟩

/-- Claim C3 (corrected): for a variant differing only in case and
leading/trailing whitespace, `resolve_location` returns identical coordinates
from the same state; `canonical_location_name` agrees on the two names when
the name is known to the registry (on an unknown name it returns the trimmed
input itself, which keeps the variant's own casing). -/
theorem lookup_case_whitespace_variants (st : GameMap) (n v : String)
    (hv : strLower (strTrim v) = strLower (strTrim n)) :
    (st.resolve_location n).1 = (st.resolve_location v).1 ∧
    ((∃ kv ∈ st.locations, strLower kv.1 = strLower (strTrim n)) →
      st.canonical_location_name n = st.canonical_location_name v) := by
  constructor
  · unfold GameMap.resolve_location
    rw [hv]
    cases hf : st.locations.find? (fun kv => strLower kv.1 == strLower (strTrim n)) <;> rfl
  · intro hex
    unfold GameMap.canonical_location_name
    rw [hv]
    cases hf : st.locations.find? (fun kv => strLower kv.1 == strLower (strTrim n)) with
    | some kv => rfl
    | none =>
      exfalso
      rcases hex with ⟨kv, hkv, he⟩
      have hne := List.find?_eq_none.mp hf kv hkv
      simp [he] at hne

/-- Claim C3 witness: "castle" and "  CASTLE " agree on coordinates and on the
canonical name (the registered key "Castle"). -/
theorem lookup_case_whitespace_variants_witness :
    (GameMap.init.resolve_location "castle").1 =
      (GameMap.init.resolve_location "  CASTLE ").1 ∧
    GameMap.init.canonical_location_name "castle" =
      GameMap.init.canonical_location_name "  CASTLE " := by
  have h := lookup_case_whitespace_variants GameMap.init "castle" "  CASTLE " (by decide)
  exact ⟨h.1, h.2 ⟨("Castle", (28, 16)), by decide, by decide⟩⟩

/-- Claim C3 counterexample: "zzz" and "ZZZ" are case variants of each other,
yet on a state that does not know the name the canonicalization returns the
trimmed inputs themselves, which differ. -/
theorem canonicalize_case_variant_counterexample :
    strLower (strTrim "ZZZ") = strLower (strTrim "zzz") ∧
    GameMap.init.canonical_location_name "zzz" ≠
      GameMap.init.canonical_location_name "ZZZ" :=
  ⟨by decide, by decide⟩

/-- Claim C4 (corrected): direction (i) holds in every reachable state — a
neutralized target linked to an existing spot has that spot neutralized; but
direction (ii) fails: `create_target` accepts a link to an already
neutralized spot, so a reachable state can hold an active target linked to a
neutralized spot (see the counterexample). -/
theorem neutralized_target_spot_invariant (st : GameMap) (h : Reachable st)
    (t : Target) (ht : t ∈ st.targets) (d : DragonSpot) (hd : d ∈ st.dragon_spots)
    (hl : t.linked_dragon_spot_id = some d.id) (hs : t.status = "neutralized") :
    d.status = "neutralized" := by
  have hinv := reachable_inv h
  have h1 : d.status ≠ "active" := hinv.link_status t ht d hd hl (by rw [hs]; decide)
  rcases hinv.spot_status d hd with h2 | h2
  · exact absurd h2 h1
  · exact h2

/-- Claim C4 witness: in the reachable trace state the neutralized linked
target indeed has its spot neutralized. -/
theorem neutralized_target_spot_invariant_witness :
    DragonSpot.status ⟨mkDragonId 0, "Village", (44, 24), "fire", "neutralized"⟩ =
      "neutralized" :=
  neutralized_target_spot_invariant c4State5 c4State5_reachable
    ⟨mkTargetId 2, "Village", some (mkDragonId 0), "neutralized", some (44, 24)⟩
    (by decide)
    ⟨mkDragonId 0, "Village", (44, 24), "fire", "neutralized"⟩
    (by decide) (by decide) (by decide)

/-- Claim C4 counterexample: a reachable state (spot created, knight attack
neutralizes it through a first linked target, then a second target is linked
to it) holding an ACTIVE target linked to a NEUTRALIZED dragon spot. -/
theorem active_target_linked_neutralized_spot_counterexample :
    Reachable c4State5 ∧
    (⟨mkTargetId 3, "Village", some (mkDragonId 0), "active", some (44, 24)⟩ : Target) ∈
      c4State5.targets ∧
    (⟨mkDragonId 0, "Village", (44, 24), "fire", "neutralized"⟩ : DragonSpot) ∈
      c4State5.dragon_spots :=
  ⟨c4State5_reachable, by decide, by decide⟩

/-- Claim C5: in every reachable state a target linked to an existing dragon
spot carries the spot's current location, whatever actions, adversary turns
and random outcomes produced the state. -/
theorem linked_target_mirrors_spot_location (st : GameMap) (h : Reachable st)
    (t : Target) (ht : t ∈ st.targets) (d : DragonSpot) (hd : d ∈ st.dragon_spots)
    (hl : t.linked_dragon_spot_id = some d.id) : t.location = d.location :=
  (reachable_inv h).link_loc t ht d hd hl

/-- Claim C5 witness: the concrete linked pair of `demoLinkedState`. -/
theorem linked_target_mirrors_spot_location_witness :
    Target.location ⟨mkTargetId 1, "Village", some (mkDragonId 0), "active", some (44, 24)⟩ =
      DragonSpot.location ⟨mkDragonId 0, "Village", (44, 24), "fire", "active"⟩ :=
  linked_target_mirrors_spot_location demoLinkedState demoLinkedState_reachable
    ⟨mkTargetId 1, "Village", some (mkDragonId 0), "active", some (44, 24)⟩ (by decide)
    ⟨mkDragonId 0, "Village", (44, 24), "fire", "active"⟩ (by decide) (by decide)

/-- Claim C6 (corrected): (a) a knight with `grace_turn` set survives into the
next adversary turn's outcome (for an inactive game the turn is a no-op); (b)
after an adversary turn of an ACTIVE game every surviving knight has
`grace_turn` false — the reset is not unconditional, an inactive game keeps
the flag (see the counterexample); (c) an unprotected knight co-located with
an active dragon spot is killed by some outcome of a subsequent turn. -/
theorem grace_turn_law (st : GameMap) (r : TurnRandom) :
    (∀ k ∈ st.knights, k.grace_turn = true →
      ∃ k2 ∈ (st.process_enemy_turn r).knights, k2.id = k.id) ∧
    (st.game_active = true →
      ∀ k2 ∈ (st.process_enemy_turn r).knights, k2.grace_turn = false) ∧
    (st.game_active = true → (st.knights.map Knight.id).Nodup →
      ∀ k ∈ st.knights, k.grace_turn = false →
      ∀ d ∈ st.dragon_spots, d.status = "active" → d.location = k.location →
      ∃ r2 : TurnRandom, ∀ k2 ∈ (st.process_enemy_turn r2).knights, k2.id ≠ k.id) := by
  refine ⟨?_, ?_, ?_⟩
  · intro k hk hgr
    by_cases hg : st.game_active = true
    · have hk1 : k ∈ (enemyMove (enemyPrelude st) r).knights := by
        rw [enemyMove_knights]
        exact hk
      have hk2 : k ∈ (enemyCombat (enemyMove (enemyPrelude st) r)).knights :=
        combatPass_grace_kept (enemyMove (enemyPrelude st) r).dragon_spots
          (enemyMove (enemyPrelude st) r) k hk1 hgr
      refine ⟨{ k with grace_turn := false }, ?_, rfl⟩
      rw [process_enemy_turn_of_active st r hg, enemyCooldown_knights, enemySpawn_knights]
      show { k with grace_turn := false } ∈
        (enemyCombat (enemyMove (enemyPrelude st) r)).knights.map
          (fun k3 => { k3 with grace_turn := false })
      exact List.mem_map_of_mem _ hk2
    · have hg2 : st.game_active = false := by
        cases hx : st.game_active with
        | false => rfl
        | true => exact absurd hx hg
      rw [process_enemy_turn_of_inactive st r hg2]
      exact ⟨k, hk, rfl⟩
  · intro hg k2 hk2
    rw [process_enemy_turn_of_active st r hg, enemyCooldown_knights,
      enemySpawn_knights] at hk2
    replace hk2 : k2 ∈ (enemyCombat (enemyMove (enemyPrelude st) r)).knights.map
      (fun k3 => { k3 with grace_turn := false }) := hk2
    rcases List.mem_map.mp hk2 with ⟨k3, _, hk3⟩
    rw [← hk3]
  · intro hg hnd k hk hgr d hd hact hloc
    refine ⟨rNone, ?_⟩
    intro k2 hk2
    rw [process_enemy_turn_of_active st rNone hg, enemyCooldown_knights,
      enemySpawn_knights] at hk2
    replace hk2 : k2 ∈ (enemyCombat (enemyMove (enemyPrelude st) rNone)).knights.map
      (fun k3 => { k3 with grace_turn := false }) := hk2
    rcases List.mem_map.mp hk2 with ⟨k3, hk3mem, hk3⟩
    rw [enemyMove_rNone] at hk3mem
    intro hid
    have hk3id : k3.id = k.id := by rw [← hid, ← hk3]
    have hk3sub : k3 ∈ st.knights :=
      combatPass_knights_sub (enemyPrelude st).dragon_spots (enemyPrelude st) k3 hk3mem
    have hk3k : k3 = k := List.inj_on_of_nodup_map hnd hk3sub hk hk3id
    have hno := combatPass_kills (enemyPrelude st).dragon_spots d hd hact
      (enemyPrelude st) k3 hk3mem
    exact hno ⟨by rw [hk3k]; exact hloc.symm, by rw [hk3k]; exact hgr⟩

/-- Claim C6 witness: in the active game with a freshly moved (grace) knight
sharing Village with an active dragon, the knight survives the adversary turn
and comes out with `grace_turn` cleared. -/
theorem grace_turn_law_witness :
    activeGraceState.game_active = true ∧
    Knight.grace_turn ⟨mkKnightId 1, "K", "Village", (44, 24), false⟩ = false := by
  have h := grace_turn_law activeGraceState rNone
  exact ⟨by decide,
    h.2.1 (by decide) ⟨mkKnightId 1, "K", "Village", (44, 24), false⟩ (by decide)⟩

/-- Claim C6 counterexample: with the game inactive, `process_enemy_turn` is a
no-op, so a knight keeps `grace_turn = true` after the call — the claimed
reset "at the end of every adversary turn regardless of outcome" fails. -/
theorem grace_not_cleared_when_inactive_counterexample :
    graceMoveState.game_active = false ∧
    (graceMoveState.process_enemy_turn rNone).knights.map Knight.grace_turn = [true] :=
  ⟨by decide, by decide⟩

/-- Claim C7: artillery against an id resolving to an existing (linked)
target fails without a trebuchet, leaving the state untouched; with a
trebuchet it neutralizes the target and its linked spot, empties the
trebuchet collection, sets the cooldown to 3, stamps the artillery effect
with the target's location, and leaves the knights unchanged. -/
theorem attack_artillery_target_behavior (st : GameMap) (tid : String) (t : Target)
    (lid : String) (d : DragonSpot)
    (hft : st.targets.find? (fun x => x.id == tid) = some t)
    (hl : t.linked_dragon_spot_id = some lid)
    (hlne : lid.isEmpty = false)
    (hfd : st.dragon_spots.find? (fun x => x.id == lid) = some d) :
    (st.trebuchets = [] →
      st.attack_target tid "artillery" =
        ("Cannot attack with artillery: no trebuchet on the map. Build one first (when cooldown allows).",
         st)) ∧
    (st.trebuchets ≠ [] →
      st.attack_target tid "artillery" =
        ("Target(s) neutralized (artillery).",
         ({ st with
            trebuchets := [], trebuchet_cooldown := 3,
            effect_dragon_killed_by_artillery_at := some t.location }).neutralize_target t) ∧
      ((st.attack_target tid "artillery").2.targets.find? (fun x => x.id == tid)).map
        Target.status = some "neutralized" ∧
      ((st.attack_target tid "artillery").2.dragon_spots.find? (fun x => x.id == lid)).map
        DragonSpot.status = some "neutralized" ∧
      (st.attack_target tid "artillery").2.trebuchets = [] ∧
      (st.attack_target tid "artillery").2.trebuchet_cooldown = 3 ∧
      (st.attack_target tid "artillery").2.effect_dragon_killed_by_artillery_at =
        some t.location ∧
      (st.attack_target tid "artillery").2.knights = st.knights) := by
  have hm : AttackMethod.ofValue (strLower "artillery") = some AttackMethod.artillery := rfl
  have htid2 : t.id = tid := by simpa using List.find?_some hft
  constructor
  · intro htreb
    unfold GameMap.attack_target
    rw [hm]
    simp only [hft]
    exact attackLoop_artillery_fail t [] htreb
  · intro htreb
    have hmain : st.attack_target tid "artillery" =
        ("Target(s) neutralized (artillery).",
         ({ st with
            trebuchets := [], trebuchet_cooldown := 3,
            effect_dragon_killed_by_artillery_at := some t.location }).neutralize_target
           t) := by
      unfold GameMap.attack_target
      rw [hm]
      simp only [hft]
      rw [attackLoop_artillery_success t [] htreb]
      rfl
    have hft2 : st.targets.find? (fun x => x.id == t.id) = some t := by
      rw [htid2]
      exact hft
    refine ⟨hmain, ?_, ?_, ?_, ?_, ?_, ?_⟩
    · rw [hmain]
      show ((updateFirst (fun x => x.id == t.id) (fun x => { x with status := "neutralized" })
          st.targets).find? (fun x => x.id == tid)).map Target.status = some "neutralized"
      rw [← htid2]
      have he : (updateFirst (fun x => x.id == t.id)
          (fun x => { x with status := "neutralized" }) st.targets).find?
            (fun x => x.id == t.id) =
          some ((fun x => { x with status := "neutralized" }) t) :=
        find?_updateFirst hft2 (by simp)
      rw [he]
      rfl
    · rw [hmain]
      have hspots : ((({ st with
          trebuchets := [], trebuchet_cooldown := 3,
          effect_dragon_killed_by_artillery_at := some t.location } : GameMap)).neutralize_target
            t).dragon_spots =
          updateFirst (fun x => x.id == lid) (fun x => { x with status := "neutralized" })
            st.dragon_spots := neutralize_spots_of_linked hl hlne
      show (((({ st with
          trebuchets := [], trebuchet_cooldown := 3,
          effect_dragon_killed_by_artillery_at := some t.location } : GameMap)).neutralize_target
            t).dragon_spots.find? (fun x => x.id == lid)).map DragonSpot.status =
        some "neutralized"
      rw [hspots]
      have he : (updateFirst (fun x => x.id == lid)
          (fun x => { x with status := "neutralized" }) st.dragon_spots).find?
            (fun x => x.id == lid) =
          some ((fun x => { x with status := "neutralized" }) d) :=
        find?_updateFirst hfd (by simpa using List.find?_some hfd)
      rw [he]
      rfl
    · rw [hmain]
      rfl
    · rw [hmain]
      rfl
    · rw [hmain]
      rfl
    · rw [hmain]
      rfl

/-- Claim C7 witness: the fail branch at the trebuchet-less linked state and
the success branch at the state with a Castle trebuchet. -/
theorem attack_artillery_target_behavior_witness :
    demoLinkedState.attack_target (mkTargetId 1) "artillery" =
      ("Cannot attack with artillery: no trebuchet on the map. Build one first (when cooldown allows).",
       demoLinkedState) ∧
    ((demoTrebState.attack_target (mkTargetId 1) "artillery").2.targets.find?
      (fun x => x.id == mkTargetId 1)).map Target.status = some "neutralized" ∧
    ((demoTrebState.attack_target (mkTargetId 1) "artillery").2.dragon_spots.find?
      (fun x => x.id == mkDragonId 0)).map DragonSpot.status = some "neutralized" ∧
    (demoTrebState.attack_target (mkTargetId 1) "artillery").2.trebuchets = [] ∧
    (demoTrebState.attack_target (mkTargetId 1) "artillery").2.trebuchet_cooldown = 3 ∧
    (demoTrebState.attack_target
      (mkTargetId 1) "artillery").2.effect_dragon_killed_by_artillery_at =
        some "Village" := by
  have h1 := attack_artillery_target_behavior demoLinkedState (mkTargetId 1)
    ⟨mkTargetId 1, "Village", some (mkDragonId 0), "active", some (44, 24)⟩
    (mkDragonId 0) ⟨mkDragonId 0, "Village", (44, 24), "fire", "active"⟩
    (by decide) (by decide) (by decide) (by decide)
  have h2 := attack_artillery_target_behavior demoTrebState (mkTargetId 1)
    ⟨mkTargetId 1, "Village", some (mkDragonId 0), "active", some (44, 24)⟩
    (mkDragonId 0) ⟨mkDragonId 0, "Village", (44, 24), "fire", "active"⟩
    (by decide) (by decide) (by decide) (by decide)
  have h2s := h2.2 (by decide)
  exact ⟨h1.1 (by decide), h2s.2.1, h2s.2.2.1, h2s.2.2.2.1, h2s.2.2.2.2.1,
    h2s.2.2.2.2.2.1⟩

/-- Claim C8: for a valid method, an id matching a dragon spot but no target
and no target link makes `attack_target` neutralize the spot directly and
report success. -/
theorem attack_spot_no_linked_targets_direct (st : GameMap) (did am : String)
    (d : DragonSpot)
    (hv : strLower am = "knight" ∨ strLower am = "artillery")
    (hnt : st.targets.find? (fun t => t.id == did) = none)
    (hfd : st.dragon_spots.find? (fun x => x.id == did) = some d)
    (hnl : ∀ t ∈ st.targets, t.linked_dragon_spot_id ≠ some did) :
    st.attack_target did am =
      ("Dragon spot " ++ did ++ " neutralized (" ++ strLower am ++ ").",
       { st with
         dragon_spots := updateFirst (fun x => x.id == did)
           (fun x => { x with status := "neutralized" }) st.dragon_spots }) ∧
    ((st.attack_target did am).2.dragon_spots.find? (fun x => x.id == did)).map
      DragonSpot.status = some "neutralized" := by
  have hfil : st.targets.filter (fun t => t.linked_dragon_spot_id == some did) = [] := by
    rw [List.filter_eq_nil_iff]
    intro t ht
    simpa using hnl t ht
  have hres : (st.targets.filter
      (fun t => t.linked_dragon_spot_id == some did)).isEmpty = true := by
    rw [hfil]
    rfl
  have hmain : st.attack_target did am =
      ("Dragon spot " ++ did ++ " neutralized (" ++ strLower am ++ ").",
       { st with
         dragon_spots := updateFirst (fun x => x.id == did)
           (fun x => { x with status := "neutralized" }) st.dragon_spots }) := by
    rcases hv with hk | ha
    · have hm : AttackMethod.ofValue (strLower am) = some AttackMethod.knight := by
        rw [hk]
        rfl
      unfold GameMap.attack_target
      rw [hm, hk]
      simp only [hnt, hfd]
      rw [if_pos hres]
      rfl
    · have hm : AttackMethod.ofValue (strLower am) = some AttackMethod.artillery := by
        rw [ha]
        rfl
      unfold GameMap.attack_target
      rw [hm, ha]
      simp only [hnt, hfd]
      rw [if_pos hres]
      rfl
  refine ⟨hmain, ?_⟩
  rw [hmain]
  show ((updateFirst (fun x => x.id == did) (fun x => { x with status := "neutralized" })
      st.dragon_spots).find? (fun x => x.id == did)).map DragonSpot.status =
    some "neutralized"
  have he : (updateFirst (fun x => x.id == did) (fun x => { x with status := "neutralized" })
      st.dragon_spots).find? (fun x => x.id == did) =
      some ((fun x => { x with status := "neutralized" }) d) :=
    find?_updateFirst hfd (by simpa using List.find?_some hfd)
  rw [he]
  rfl

/-- Claim C8 witness: the artillery variant of the direct spot neutralize at
the concrete one-spot state (no trebuchet needed on this path). -/
theorem attack_spot_no_linked_targets_direct_witness :
    demoSpotState.attack_target (mkDragonId 0) "artillery" =
      ("Dragon spot " ++ mkDragonId 0 ++ " neutralized (" ++ strLower "artillery" ++ ").",
       { demoSpotState with
         dragon_spots := updateFirst (fun x => x.id == mkDragonId 0)
           (fun x => { x with status := "neutralized" }) demoSpotState.dragon_spots }) ∧
    ((demoSpotState.attack_target (mkDragonId 0) "artillery").2.dragon_spots.find?
      (fun x => x.id == mkDragonId 0)).map DragonSpot.status = some "neutralized" :=
  attack_spot_no_linked_targets_direct demoSpotState (mkDragonId 0) "artillery"
    ⟨mkDragonId 0, "Village", (44, 24), "fire", "active"⟩
    (Or.inr (by decide)) (by decide) (by decide) (by decide)

/-- Claim C9: with `game_active` false, `process_enemy_turn` returns the state
unchanged — every field, including `turn_count`, logs, spots, knights, grace
flags, cooldown and effects. -/
theorem process_enemy_turn_inactive_noop (st : GameMap) (r : TurnRandom)
    (h : st.game_active = false) : st.process_enemy_turn r = st := by
  unfold GameMap.process_enemy_turn
  rw [h]
  rfl

/-- Claim C9 witness: the fresh map (inactive) is untouched by an adversary
turn. -/
theorem process_enemy_turn_inactive_noop_witness :
    GameMap.init.process_enemy_turn rNone = GameMap.init :=
  process_enemy_turn_inactive_noop GameMap.init rNone (by decide)

/-- Claim C10: a `create_trebuchet` call failing on cooldown or on an existing
trebuchet returns the corresponding "Cannot build trebuchet" message with the
state fully unchanged (in particular no location is registered); on a
successful build an unknown name IS auto-registered with coordinates (0, 0). -/
theorem create_trebuchet_failure_frame (st : GameMap) (loc : String) :
    (st.trebuchet_cooldown > 0 →
      st.create_trebuchet loc =
        ("Cannot build trebuchet: cooldown active (" ++ toString st.trebuchet_cooldown ++
           " turns remaining).", st)) ∧
    (st.trebuchet_cooldown = 0 → st.trebuchets ≠ [] →
      st.create_trebuchet loc =
        ("Cannot build trebuchet: one already exists. Use artillery to fire it, then wait for cooldown.",
         st)) ∧
    (st.trebuchet_cooldown = 0 → st.trebuchets = [] →
      (∀ kv ∈ st.locations, strLower kv.1 ≠ strLower (strTrim loc)) →
      (st.create_trebuchet loc).2.locations = st.locations ++ [(strTrim loc, (0, 0))]) := by
  refine ⟨?_, ?_, ?_⟩
  · intro h1
    unfold GameMap.create_trebuchet
    rw [if_pos h1]
  · intro h1 h2
    have hie : st.trebuchets.isEmpty = false := by
      cases hx : st.trebuchets with
      | nil => exact absurd hx h2
      | cons a l => rfl
    unfold GameMap.create_trebuchet
    rw [if_neg (by omega), if_pos (by rw [hie]; rfl)]
  · intro h1 h2 h3
    have hf : st.locations.find? (fun kv => strLower kv.1 == strLower (strTrim loc)) =
        none := by
      rw [List.find?_eq_none]
      intro kv hkv
      simpa using h3 kv hkv
    unfold GameMap.create_trebuchet
    rw [if_neg (by omega), if_neg (by rw [h2]; decide)]
    show (st.resolve_location loc).2.locations = st.locations ++ [(strTrim loc, (0, 0))]
    unfold GameMap.resolve_location
    rw [hf]

/-- Claim C10 witness: the cooldown failure right after an artillery shot, the
existing-trebuchet failure, and the registration of the unknown name "zzz" on
a successful build from the fresh map. -/
theorem create_trebuchet_failure_frame_witness :
    artilleryDoneState.create_trebuchet "Tower" =
      ("Cannot build trebuchet: cooldown active (3 turns remaining).",
       artilleryDoneState) ∧
    demoTrebState.create_trebuchet "Tower" =
      ("Cannot build trebuchet: one already exists. Use artillery to fire it, then wait for cooldown.",
       demoTrebState) ∧
    (GameMap.init.create_trebuchet "zzz").2.locations =
      GameMap.init.locations ++ [("zzz", (0, 0))] := by
  have h1 := (create_trebuchet_failure_frame artilleryDoneState "Tower").1 (by decide)
  have h2 := (create_trebuchet_failure_frame demoTrebState "Tower").2.1 (by decide)
    (by decide)
  have h3 := (create_trebuchet_failure_frame GameMap.init "zzz").2.2 (by decide)
    (by decide) (by decide)
  exact ⟨h1.trans (by decide), h2, h3⟩

end GameState
